import Mathlib

/-!
Shallow embedding of `src/sysfs_firmware_attributes.rs` from the
`fw-attr-editor` repository, with proofs about root discovery, the
property codec, attribute classification, typed read/write with
caching, and authentication loading.

Modelling conventions:
* the pseudo-filesystem is an explicit value (`FileSys`: a set of
  directory paths plus an association list of file paths to contents);
* the per-attribute value cache (an `Arc<Mutex<Option<T>>>` in the
  source) is explicit state of type `Option T`, threaded through the
  read/write operations;
* fallible operations return `Except AttributeError`;
* Rust `i32` is `Int` with explicit range checks at parse time, and
  `usize` is `Nat` with the 64-bit range check at parse time;
* real-world I/O faults (permissions, device failure) are outside the
  model, except that reading or writing a path that exists only as a
  directory is modelled as `IOError`, which is how
  `fs::read_to_string` / `fs::write` fail on a directory.
-/
/-- Embedding of the `AttributeError` enum.  The payloads of `IOError`
and `ParseIntError` are dropped: the code never inspects them.  Paths
are lists of segments. -/
inductive AttributeError where
  | MissingFile (path : List String)
  | MissingDirectory (path : List String)
  | IOError
  | ParseIntError
  | UnsupportedAttributeType (s : String)
  | VariantNotFount
  | InvalidRoot (path : List String)
deriving DecidableEq

instance instDecEqExcept {ε α : Type} [DecidableEq ε] [DecidableEq α] :
    DecidableEq (Except ε α) := fun x y =>
  match x, y with
  | .ok a, .ok b =>
    if h : a = b then isTrue (by rw [h]) else isFalse (by simp [h])
  | .error e, .error f =>
    if h : e = f then isTrue (by rw [h]) else isFalse (by simp [h])
  | .ok _, .error _ => isFalse (by simp)
  | .error _, .ok _ => isFalse (by simp)

/-! ## Rust string primitives used by the source

The source only ever splits and joins on one-character patterns
(`POSSIBLE_VALUES_DELIMITER = ";"`, `ENUMERATION_VALUES_DELIMITER = ":"`)
and trims the one-character suffix `SYSFS_END_LINE = "\n"`, so the
primitives are embedded for a `Char` pattern. -/
/-- Rust `str::split` with a one-character pattern, on `List Char`.
Splitting the empty string yields `[[]]`; a delimiter at either end or
two adjacent delimiters yield empty segments, as in Rust. -/
def char_split (c : Char) : List Char → List (List Char)
  | [] => [[]]
  | x :: xs =>
    match char_split c xs with
    | h :: t => if x = c then [] :: h :: t else (x :: h) :: t
    | [] => [[]]

/-- Rust `[String]::join` with a one-character separator, on `List Char`. -/
def char_join (c : Char) : List (List Char) → List Char
  | [] => []
  | [x] => x
  | x :: y :: ys => x ++ c :: char_join c (y :: ys)

/-- Rust `str::split` with a one-character pattern. -/
def split_on (c : Char) (s : String) : List String :=
  (char_split c s.data).map (fun l => ⟨l⟩)

/-- Rust `[String]::join` with a one-character separator. -/
def join_with (c : Char) (l : List String) : String :=
  ⟨char_join c (l.map String.data)⟩

/-- Embedding of `trim_end_matches(SYSFS_END_LINE)`: Rust
`trim_end_matches` removes *all* suffixes matching the pattern, and for
the one-character pattern `"\n"` that is exactly removal of every
trailing `'\n'` character. -/
def trim_end_matches_newline (s : String) : String :=
  ⟨(s.data.reverse.dropWhile (fun c => c == '\n')).reverse⟩

/-- `true` iff the string's last character is `'\n'`. -/
def ends_with_newline (s : String) : Bool :=
  match s.data.reverse.head? with
  | some c => c == '\n'
  | none => false

/-! ## Rust integer formatting and parsing -/
/-- Decimal digits of `n`, most significant first.  `fuel` bounds the
recursion depth; any `fuel > n` is enough.  Mirrors the decimal
formatting used by Rust's integer `to_string` for the magnitude. -/
def nat_to_digits_aux : Nat → Nat → List Char
  | _, 0 => []
  | n, fuel + 1 =>
    if n < 10 then [Nat.digitChar n]
    else nat_to_digits_aux (n / 10) fuel ++ [Nat.digitChar (n % 10)]

/-- Decimal digits of `n`, most significant first. -/
def nat_to_digits (n : Nat) : List Char := nat_to_digits_aux n (n + 1)

/-- Numeric value of a decimal digit character, `none` otherwise. -/
def digit_val (c : Char) : Option Nat :=
  if 48 ≤ c.toNat ∧ c.toNat ≤ 57 then some (c.toNat - 48) else none

def parse_digits_aux (acc : Nat) : List Char → Option Nat
  | [] => some acc
  | c :: rest =>
    match digit_val c with
    | some d => parse_digits_aux (acc * 10 + d) rest
    | none => none

/-- Parse a nonempty all-digit character list as a `Nat`.  Mirrors the
digit-accumulation loop of Rust `from_str_radix`; overflow is checked
by the callers against the target type's range instead of during the
loop, which accepts the same inputs and produces the same error kind. -/
def parse_nat_digits : List Char → Option Nat
  | [] => none
  | c :: rest => parse_digits_aux 0 (c :: rest)

/-- `i32::MAX`. -/
def I32_MAX_INT : Int := 2147483647

/-- `i32::MIN`. -/
def I32_MIN_INT : Int := -2147483648

/-- `usize::MAX` (64-bit target). -/
def USIZE_MAX : Nat := 18446744073709551615

/-- Embedding of Rust `i32`'s `to_string` (`Display`): minus sign for
negative values, then the decimal digits of the magnitude. -/
def i32_to_string (v : Int) : String :=
  if v < 0 then ⟨'-' :: nat_to_digits v.natAbs⟩ else ⟨nat_to_digits v.toNat⟩

/-- Embedding of Rust `i32::from_str`: optional `+`/`-` sign, then at
least one decimal digit, with an `i32` range check. -/
def i32_from_str (s : String) : Except AttributeError Int :=
  match s.data with
  | [] => .error .ParseIntError
  | c :: rest =>
    if c = '-' then
      match parse_nat_digits rest with
      | some n => if (n : Int) ≤ 2147483648 then .ok (-(n : Int))
                  else .error .ParseIntError
      | none => .error .ParseIntError
    else
      match parse_nat_digits (if c = '+' then rest else c :: rest) with
      | some n => if (n : Int) ≤ I32_MAX_INT then .ok (n : Int)
                  else .error .ParseIntError
      | none => .error .ParseIntError

/-- Embedding of Rust `usize::from_str`: optional `+` sign, then at
least one decimal digit, with a `usize` range check. -/
def usize_from_str (s : String) : Except AttributeError Nat :=
  match s.data with
  | [] => .error .ParseIntError
  | c :: rest =>
    match parse_nat_digits (if c = '+' then rest else c :: rest) with
    | some n => if n ≤ USIZE_MAX then .ok n else .error .ParseIntError
    | none => .error .ParseIntError

/-! ## The pseudo-filesystem model -/
/-- A filesystem path, as a list of segments. -/
abbrev FsPath := List String

/-- Explicit model of the pseudo-filesystem: the set of existing
directories plus an association list from file paths to raw contents.
`read_dir` enumeration order is the order of these lists. -/
structure FileSys where
  dirs : List FsPath
  files : List (FsPath × String)
deriving DecidableEq

/-- First content stored under key `p` in an association list. -/
def lookup_path : List (FsPath × String) → FsPath → Option String
  | [], _ => none
  | e :: rest, p => if e.1 = p then some e.2 else lookup_path rest p

/-- Content of the file at `p`, if `p` is a file. -/
def FileSys.lookup_file (fs : FileSys) (p : FsPath) : Option String :=
  lookup_path fs.files p

/-- `Path::exists`: true iff `p` exists, as a directory or as a file. -/
def FileSys.path_exists (fs : FileSys) (p : FsPath) : Bool :=
  fs.dirs.any (fun q => decide (q = p)) || fs.files.any (fun e => decide (e.1 = p))

/-- `Path::is_dir`. -/
def FileSys.is_dir (fs : FileSys) (p : FsPath) : Bool :=
  fs.dirs.any (fun q => decide (q = p))

/-- Overwrite the contents stored under key `p` (all matching entries,
so any lookup sees the new value); keys are unchanged. -/
def write_path : List (FsPath × String) → FsPath → String → List (FsPath × String)
  | [], _, _ => []
  | e :: rest, p, v =>
    if e.1 = p then (p, v) :: write_path rest p v else e :: write_path rest p v

/-- `fs::write` on an existing file path. -/
def FileSys.set_file (fs : FileSys) (p : FsPath) (v : String) : FileSys :=
  { fs with files := write_path fs.files p v }

/-- Remove the file entry at `p`; used to state that a property file is
not consulted by an operation. -/
def FileSys.erase_file (fs : FileSys) (p : FsPath) : FileSys :=
  { fs with files := fs.files.filter (fun e => decide (e.1 ≠ p)) }

/-- `read_dir`: the immediate children (directories and files) of
`base`, in the model's enumeration order. -/
def FileSys.read_dir (fs : FileSys) (base : FsPath) : List FsPath :=
  (fs.dirs ++ fs.files.map Prod.fst).filter
    (fun p => decide (p.length = base.length + 1) && base.isPrefixOf p)

/-! ## Constants of the source module -/
def POSSIBLE_VALUES_DELIMITER : Char := ';'

def ENUMERATION_VALUES_DELIMITER : Char := ':'

def PATH_ATTRIBUTES : String := "attributes"

def PATH_AUTHENTICATIONS : String := "authentication"

def ENUMERATION_LIST_ATTRIBUTES : List String := ["BootOrder"]

def TYPE_ENUMERATION : String := "enumeration"

def TYPE_INTEGER : String := "integer"

def TYPE_STRING : String := "string"

def TYPE_ORDERED_LIST : String := "ordered-list"

def TYPE_ENUMERATION_LIST : String := "enumeration-list"

/-- `/sys/class/firmware-attributes/` as path segments. -/
def PATH_SYSFS_FIRMWARE_ATTRIBUTES : FsPath := ["sys", "class", "firmware-attributes"]

def PROPERTY_CURRENT_VALUE : String := "current_value"

def PROPERTY_CURRENT_PASSWORD : String := "current_password"

def PROPERTY_DEFAULT_VALUE : String := "default_value"

def PROPERTY_DISPLAY_NAME : String := "display_name"

/-! ## Property codec -/
/-- Embedding of `read_attribute_property`.  A missing path is
`MissingFile`; a path that exists only as a directory makes
`fs::read_to_string` fail, modelled as `IOError`; otherwise the content
is returned with `trim_end_matches(SYSFS_END_LINE)` applied. -/
def read_attribute_property (fs : FileSys) (root : FsPath) (property : String) :
    Except AttributeError String :=
  if fs.path_exists (root ++ [property]) then
    match fs.lookup_file (root ++ [property]) with
    | some content => .ok (trim_end_matches_newline content)
    | none => .error .IOError
  else .error (.MissingFile (root ++ [property]))

/-- Embedding of `try_read_attribute_property`: as the required read,
but an absent path yields `Ok(None)` instead of an error. -/
def try_read_attribute_property (fs : FileSys) (root : FsPath) (property : String) :
    Except AttributeError (Option String) :=
  if fs.path_exists (root ++ [property]) then
    match fs.lookup_file (root ++ [property]) with
    | some content => .ok (some (trim_end_matches_newline content))
    | none => .error .IOError
  else .ok none

/-- Embedding of `write_attribute_property`; returns the result paired
with the filesystem after the write.  The raw value is stored with no
terminator appended.  A path that does not pre-exist is `MissingFile`;
one that exists only as a directory makes `fs::write` fail (`IOError`). -/
def write_attribute_property (fs : FileSys) (root : FsPath) (property : String)
    (value : String) : Except AttributeError Unit × FileSys :=
  if fs.path_exists (root ++ [property]) then
    match fs.lookup_file (root ++ [property]) with
    | some _ => (.ok (), fs.set_file (root ++ [property]) value)
    | none => (.error .IOError, fs)
  else (.error (.MissingFile (root ++ [property])), fs)

/-! ## Root discovery and validation -/
/-- Embedding of `is_firmware_attributes_root`. -/
def is_firmware_attributes_root (fs : FileSys) (root : FsPath) : Bool :=
  fs.path_exists (root ++ [PATH_AUTHENTICATIONS])
    && fs.path_exists (root ++ [PATH_ATTRIBUTES])

/-- Embedding of `autodetect_root`: mirrors the imperative push loop of
the source over the `read_dir` listing. -/
def autodetect_root (fs : FileSys) : List FsPath :=
  if fs.path_exists PATH_SYSFS_FIRMWARE_ATTRIBUTES then
    if is_firmware_attributes_root fs PATH_SYSFS_FIRMWARE_ATTRIBUTES then
      [PATH_SYSFS_FIRMWARE_ATTRIBUTES]
    else
      (fs.read_dir PATH_SYSFS_FIRMWARE_ATTRIBUTES).foldl
        (fun list dir =>
          if is_firmware_attributes_root fs dir then list ++ [dir] else list) []
  else []

/-! ## Common attribute metadata -/
/-- Embedding of `CommonAttribute<T>` minus its `current_value_cache`
field: the cache (an `Arc<Mutex<Option<T>>>` in the source, initially
empty) is modelled as explicit state of type `Option T` passed to and
returned by the read and write operations. -/
structure CommonAttribute (T : Type) where
  path : FsPath
  name : String
  default_value : Option T
  display_name : Option String
  display_name_language_code : Option String
deriving DecidableEq

/-- Embedding of `attribute_name`: the last path segment.  The source
unwraps `file_name()`; the model returns `""` for the empty path, which
no operation exercises. -/
def attribute_name (root : FsPath) : String := root.getLastD ""

/-- Embedding of `current_value_cache_or`: the cached value if present,
otherwise the supplied read result; paired with the cache state after
the call (populated only by a successful read). -/
def current_value_cache_or {T : Type} (cache : Option T)
    (f : Except AttributeError T) : Except AttributeError T × Option T :=
  match cache with
  | some c => (.ok c, some c)
  | none =>
    match f with
    | .ok v => (.ok v, some v)
    | .error e => (.error e, none)

/-- Embedding of `clear_current_value_cache`: the cache state after
clearing. -/
def clear_current_value_cache {T : Type} : Option T := none

/-- Embedding of the Rust `opt.map(parse).transpose()?` idiom. -/
def option_transpose {α : Type} :
    Option (Except AttributeError α) → Except AttributeError (Option α)
  | none => .ok none
  | some (.ok a) => .ok (some a)
  | some (.error e) => .error e

def DEFAULT_INTEGER_MIN_VALUE : Int := 0

def DEFAULT_INTEGER_MAX_VALUE : Int := 2147483647

def DEFAULT_INTEGER_SCALAR_INCREMENT : Int := 1

def DEFAULT_MIN_STRING_LENGTH : Nat := 0

def DEFAULT_MAX_STRING_LENGTH : Nat := 128

def DEFAULT_MIN_PASSWORD_LENGTH : Nat := 0

def DEFAULT_MAX_PASSWORD_LENGTH : Nat := 128

/-- Embedding of `impl TryFrom<PathBuf> for CommonAttribute<String>`. -/
def CommonAttribute.try_from_string (fs : FileSys) (path : FsPath) :
    Except AttributeError (CommonAttribute String) := do
  let default_value ← try_read_attribute_property fs path PROPERTY_DEFAULT_VALUE
  let display_name ← try_read_attribute_property fs path PROPERTY_DISPLAY_NAME
  let dlc ← try_read_attribute_property fs path "display_name_language_code"
  pure { path := path, name := attribute_name path,
         default_value := default_value, display_name := display_name,
         display_name_language_code := dlc }

/-- Embedding of `impl TryFrom<PathBuf> for CommonAttribute<Vec<String>>`:
the default value splits on `;`. -/
def CommonAttribute.try_from_list (fs : FileSys) (path : FsPath) :
    Except AttributeError (CommonAttribute (List String)) := do
  let default_value ← try_read_attribute_property fs path PROPERTY_DEFAULT_VALUE
  let display_name ← try_read_attribute_property fs path PROPERTY_DISPLAY_NAME
  let dlc ← try_read_attribute_property fs path "display_name_language_code"
  pure { path := path, name := attribute_name path,
         default_value :=
           default_value.map (fun s => split_on POSSIBLE_VALUES_DELIMITER s),
         display_name := display_name, display_name_language_code := dlc }

/-- Embedding of `impl TryFrom<PathBuf> for CommonAttribute<i32>`: the
default value parses as `i32`, with parse failure propagated. -/
def CommonAttribute.try_from_i32 (fs : FileSys) (path : FsPath) :
    Except AttributeError (CommonAttribute Int) := do
  let default_value ← try_read_attribute_property fs path PROPERTY_DEFAULT_VALUE
  let default_parsed ← option_transpose (default_value.map i32_from_str)
  let display_name ← try_read_attribute_property fs path PROPERTY_DISPLAY_NAME
  let dlc ← try_read_attribute_property fs path "display_name_language_code"
  pure { path := path, name := attribute_name path,
         default_value := default_parsed, display_name := display_name,
         display_name_language_code := dlc }

/-! ## The five attribute variants -/
structure EnumerationAttribute where
  common_attribute : CommonAttribute String
  possible_values : List String
deriving DecidableEq

structure OrderedListAttribute where
  common_attribute : CommonAttribute (List String)
  elements : List String
deriving DecidableEq

structure EnumerationListAttribute where
  common_attribute : CommonAttribute (List String)
  possible_values : List String
deriving DecidableEq

structure IntegerAttribute where
  common_attribute : CommonAttribute Int
  min_value : Int
  max_value : Int
  scalar_increment : Int
deriving DecidableEq

structure StringAttribute where
  common_attribute : CommonAttribute String
  max_length : Nat
  min_length : Nat
  hint : Option String
deriving DecidableEq

/-- Embedding of `impl TryFrom<PathBuf> for EnumerationAttribute`. -/
def EnumerationAttribute.try_from (fs : FileSys) (path : FsPath) :
    Except AttributeError EnumerationAttribute := do
  let common_attribute ← CommonAttribute.try_from_string fs path
  let pv ← try_read_attribute_property fs path "possible_values"
  pure { common_attribute := common_attribute,
         possible_values :=
           (pv.map (fun s => split_on POSSIBLE_VALUES_DELIMITER s)).getD [] }

/-- Embedding of `impl TryFrom<PathBuf> for OrderedListAttribute`.  As
in the source, both the `elements` and the `possible_values` properties
are read (the argument of `Option::or` is evaluated eagerly) and
`elements` wins when present. -/
def OrderedListAttribute.try_from (fs : FileSys) (path : FsPath) :
    Except AttributeError OrderedListAttribute := do
  let common_attribute ← CommonAttribute.try_from_list fs path
  let el ← try_read_attribute_property fs path "elements"
  let pv ← try_read_attribute_property fs path "possible_values"
  pure { common_attribute := common_attribute,
         elements :=
           ((el.or pv).map (fun s => split_on POSSIBLE_VALUES_DELIMITER s)).getD [] }

/-- Embedding of `impl TryFrom<PathBuf> for EnumerationListAttribute`:
builds its `CommonAttribute` inline, splitting the default value on `:`,
and its candidate set from `possible_values` split on `;` (the
`elements` property is never read). -/
def EnumerationListAttribute.try_from (fs : FileSys) (path : FsPath) :
    Except AttributeError EnumerationListAttribute := do
  let default_value ← try_read_attribute_property fs path PROPERTY_DEFAULT_VALUE
  let display_name ← try_read_attribute_property fs path PROPERTY_DISPLAY_NAME
  let dlc ← try_read_attribute_property fs path "display_name_language_code"
  let pv ← try_read_attribute_property fs path "possible_values"
  pure { common_attribute :=
           { path := path, name := attribute_name path,
             default_value :=
               default_value.map (fun s => split_on ENUMERATION_VALUES_DELIMITER s),
             display_name := display_name, display_name_language_code := dlc },
         possible_values :=
           (pv.map (fun s => split_on POSSIBLE_VALUES_DELIMITER s)).getD [] }

/-- Embedding of `impl TryFrom<PathBuf> for IntegerAttribute`. -/
def IntegerAttribute.try_from (fs : FileSys) (path : FsPath) :
    Except AttributeError IntegerAttribute := do
  let common_attribute ← CommonAttribute.try_from_i32 fs path
  let minr ← try_read_attribute_property fs path "min_value"
  let min_value ← option_transpose (minr.map i32_from_str)
  let maxr ← try_read_attribute_property fs path "max_value"
  let max_value ← option_transpose (maxr.map i32_from_str)
  let incr ← try_read_attribute_property fs path "scalar_increment"
  let scalar_increment ← option_transpose (incr.map i32_from_str)
  pure { common_attribute := common_attribute,
         min_value := min_value.getD DEFAULT_INTEGER_MIN_VALUE,
         max_value := max_value.getD DEFAULT_INTEGER_MAX_VALUE,
         scalar_increment := scalar_increment.getD DEFAULT_INTEGER_SCALAR_INCREMENT }

/-- Embedding of `impl TryFrom<PathBuf> for StringAttribute`: the
`possible_values` property, when present, is the freeform `hint`. -/
def StringAttribute.try_from (fs : FileSys) (path : FsPath) :
    Except AttributeError StringAttribute := do
  let common_attribute ← CommonAttribute.try_from_string fs path
  let minr ← try_read_attribute_property fs path "min_length"
  let min_length ← option_transpose (minr.map usize_from_str)
  let maxr ← try_read_attribute_property fs path "max_length"
  let max_length ← option_transpose (maxr.map usize_from_str)
  let hint ← try_read_attribute_property fs path "possible_values"
  pure { common_attribute := common_attribute,
         max_length := max_length.getD DEFAULT_MAX_STRING_LENGTH,
         min_length := min_length.getD DEFAULT_MIN_STRING_LENGTH,
         hint := hint }

/-- Embedding of the `Attribute` enum. -/
inductive Attribute where
  | Enumeration (a : EnumerationAttribute)
  | Integer (a : IntegerAttribute)
  | String (a : StringAttribute)
  | OrderedList (a : OrderedListAttribute)
  | EnumerationList (a : EnumerationListAttribute)
deriving DecidableEq

/-- Embedding of `attribute_type`, including the quirk reclassification:
a raw type of `"enumeration"` on an attribute whose name is in
`ENUMERATION_LIST_ATTRIBUTES` is reported as `"enumeration-list"`. -/
def attribute_type (fs : FileSys) (root : FsPath) :
    Except AttributeError String := do
  let t ← read_attribute_property fs root "type"
  if t = TYPE_ENUMERATION ∧ attribute_name root ∈ ENUMERATION_LIST_ATTRIBUTES then
    pure TYPE_ENUMERATION_LIST
  else
    pure t

/-- Embedding of `impl TryFrom<PathBuf> for Attribute`: this is the
classification core of `load_attribute` (the façade additionally
validates the root and joins `attributes/name` onto it). -/
def Attribute.try_from (fs : FileSys) (path : FsPath) :
    Except AttributeError Attribute :=
  if fs.path_exists path && fs.is_dir path then do
    let t ← attribute_type fs path
    if t = TYPE_ENUMERATION then
      Attribute.Enumeration <$> EnumerationAttribute.try_from fs path
    else if t = TYPE_INTEGER then
      Attribute.Integer <$> IntegerAttribute.try_from fs path
    else if t = TYPE_STRING then
      Attribute.String <$> StringAttribute.try_from fs path
    else if t = TYPE_ORDERED_LIST then
      Attribute.OrderedList <$> OrderedListAttribute.try_from fs path
    else if t = TYPE_ENUMERATION_LIST then
      Attribute.EnumerationList <$> EnumerationListAttribute.try_from fs path
    else
      .error (.UnsupportedAttributeType t)
  else
    .error (.MissingDirectory path)

/-! ## Typed read and write of the current value

Each `current_value` returns the result paired with the cache state
after the call; each `write_current_value` returns the result, the
filesystem after the write, and the cache state after the call (the
source computes the write result, then clears the cache, then returns
the result). -/
def EnumerationAttribute.current_value (a : EnumerationAttribute) (fs : FileSys)
    (cache : Option String) : Except AttributeError String × Option String :=
  current_value_cache_or cache
    (read_attribute_property fs a.common_attribute.path PROPERTY_CURRENT_VALUE)

def EnumerationAttribute.write_current_value (a : EnumerationAttribute)
    (fs : FileSys) (value : String) :
    Except AttributeError Unit × FileSys × Option String :=
  let result :=
    write_attribute_property fs a.common_attribute.path PROPERTY_CURRENT_VALUE value
  (result.1, result.2, clear_current_value_cache)

def OrderedListAttribute.current_value (a : OrderedListAttribute) (fs : FileSys)
    (cache : Option (List String)) :
    Except AttributeError (List String) × Option (List String) :=
  current_value_cache_or cache
    (match read_attribute_property fs a.common_attribute.path PROPERTY_CURRENT_VALUE with
     | .ok s => .ok (split_on POSSIBLE_VALUES_DELIMITER s)
     | .error e => .error e)

def OrderedListAttribute.write_current_value (a : OrderedListAttribute)
    (fs : FileSys) (value : List String) :
    Except AttributeError Unit × FileSys × Option (List String) :=
  let result :=
    write_attribute_property fs a.common_attribute.path PROPERTY_CURRENT_VALUE
      (join_with POSSIBLE_VALUES_DELIMITER value)
  (result.1, result.2, clear_current_value_cache)

def EnumerationListAttribute.current_value (a : EnumerationListAttribute)
    (fs : FileSys) (cache : Option (List String)) :
    Except AttributeError (List String) × Option (List String) :=
  current_value_cache_or cache
    (match read_attribute_property fs a.common_attribute.path PROPERTY_CURRENT_VALUE with
     | .ok s => .ok (split_on ENUMERATION_VALUES_DELIMITER s)
     | .error e => .error e)

def EnumerationListAttribute.write_current_value (a : EnumerationListAttribute)
    (fs : FileSys) (value : List String) :
    Except AttributeError Unit × FileSys × Option (List String) :=
  let result :=
    write_attribute_property fs a.common_attribute.path PROPERTY_CURRENT_VALUE
      (join_with ENUMERATION_VALUES_DELIMITER value)
  (result.1, result.2, clear_current_value_cache)

def IntegerAttribute.current_value (a : IntegerAttribute) (fs : FileSys)
    (cache : Option Int) : Except AttributeError Int × Option Int :=
  current_value_cache_or cache
    (match read_attribute_property fs a.common_attribute.path PROPERTY_CURRENT_VALUE with
     | .ok s => i32_from_str s
     | .error e => .error e)

def IntegerAttribute.write_current_value (a : IntegerAttribute) (fs : FileSys)
    (value : Int) : Except AttributeError Unit × FileSys × Option Int :=
  let result :=
    write_attribute_property fs a.common_attribute.path PROPERTY_CURRENT_VALUE
      (i32_to_string value)
  (result.1, result.2, clear_current_value_cache)

def StringAttribute.current_value (a : StringAttribute) (fs : FileSys)
    (cache : Option String) : Except AttributeError String × Option String :=
  current_value_cache_or cache
    (read_attribute_property fs a.common_attribute.path PROPERTY_CURRENT_VALUE)

def StringAttribute.write_current_value (a : StringAttribute) (fs : FileSys)
    (value : String) : Except AttributeError Unit × FileSys × Option String :=
  let result :=
    write_attribute_property fs a.common_attribute.path PROPERTY_CURRENT_VALUE value
  (result.1, result.2, clear_current_value_cache)

/-! ## Authentication -/
/-- Embedding of the `Role` enum (strum `EnumString`). -/
inductive Role where
  | BiosAdmin
  | PowerOn
  | SystemMgmt
  | System
  | HDD
  | NVMe
  | EnhancedBiosAuth
deriving DecidableEq

/-- Embedding of `Role::from_str` under the strum serializations; an
unknown string is `VariantNotFount` (via `From<strum::ParseError>`). -/
def Role.from_str (s : String) : Except AttributeError Role :=
  if s = "bios-admin" then .ok .BiosAdmin
  else if s = "power-on" then .ok .PowerOn
  else if s = "system-mgmt" then .ok .SystemMgmt
  else if s = "system" then .ok .System
  else if s = "hdd" then .ok .HDD
  else if s = "nvme" then .ok .NVMe
  else if s = "enhanced-bios-auth" then .ok .EnhancedBiosAuth
  else .error .VariantNotFount

/-- Embedding of the `Mechanism` enum. -/
inductive Mechanism where
  | Password
deriving DecidableEq

/-- Embedding of `Mechanism::from_str`. -/
def Mechanism.from_str (s : String) : Except AttributeError Mechanism :=
  if s = "password" then .ok .Password else .error .VariantNotFount

/-- Embedding of the `Authentication` struct. -/
structure Authentication where
  path : FsPath
  login : String
  is_enabled : Bool
  role : Role
  mechanism : Mechanism
  max_password_length : Nat
  min_password_length : Nat
deriving DecidableEq

/-- Embedding of `impl TryFrom<PathBuf> for Authentication`, in the
source's evaluation order: `is_enabled`, `role`, `mechanism` are
required reads; the password-length bounds are optional with defaults. -/
def Authentication.try_from (fs : FileSys) (path : FsPath) :
    Except AttributeError Authentication := do
  let is_enabled_raw ← read_attribute_property fs path "is_enabled"
  let role_raw ← read_attribute_property fs path "role"
  let role ← Role.from_str role_raw
  let mechanism_raw ← read_attribute_property fs path "mechanism"
  let mechanism ← Mechanism.from_str mechanism_raw
  let minr ← try_read_attribute_property fs path "min_password_length"
  let min_password_length ← option_transpose (minr.map usize_from_str)
  let maxr ← try_read_attribute_property fs path "max_password_length"
  let max_password_length ← option_transpose (maxr.map usize_from_str)
  pure { path := path, login := path.getLastD "",
         is_enabled := is_enabled_raw == "1",
         role := role, mechanism := mechanism,
         max_password_length := max_password_length.getD DEFAULT_MAX_PASSWORD_LENGTH,
         min_password_length := min_password_length.getD DEFAULT_MIN_PASSWORD_LENGTH }

/-! ## Concrete fixtures used by witnesses and counterexamples -/
def sampleFsA : FileSys := ⟨[["A"]], [(["A", "current_value"], "init")]⟩

def sampleFsExt : FileSys := ⟨[["A"]], [(["A", "current_value"], "ext")]⟩

def sampleFsExt7 : FileSys := ⟨[["A"]], [(["A", "current_value"], "7")]⟩

def sampleFsEmpty : FileSys := ⟨[], []⟩

def sampleCommonString : CommonAttribute String := ⟨["A"], "A", none, none, none⟩

def sampleCommonList : CommonAttribute (List String) := ⟨["A"], "A", none, none, none⟩

def sampleCommonInt : CommonAttribute Int := ⟨["A"], "A", none, none, none⟩

def sampleEnumAttr : EnumerationAttribute := ⟨sampleCommonString, []⟩

def sampleIntAttr : IntegerAttribute := ⟨sampleCommonInt, 0, 2147483647, 1⟩

def sampleStringAttr : StringAttribute := ⟨sampleCommonString, 128, 0, none⟩

def sampleOrderedAttr : OrderedListAttribute := ⟨sampleCommonList, []⟩

def sampleEnumListAttr : EnumerationListAttribute := ⟨sampleCommonList, []⟩

def bootOrderFs : FileSys :=
  ⟨[["BootOrder"]],
   [(["BootOrder", "type"], "enumeration\n"),
    (["BootOrder", "current_value"], "a:b"),
    (["BootOrder", "possible_values"], "x;y"),
    (["BootOrder", "elements"], "z")]⟩

def bootOrderAttr : EnumerationListAttribute :=
  ⟨⟨["BootOrder"], "BootOrder", none, none, none⟩, ["x", "y"]⟩

def bootOrderFsExt : FileSys := ⟨[], [(["BootOrder", "current_value"], "c:d")]⟩

def rootWithFileAttributes : FileSys :=
  ⟨[["r"], ["r", "authentication"]], [(["r", "attributes"], "")]⟩

def authFs1 : FileSys := ⟨[], [(["auth", "A", "is_enabled"], "1")]⟩

def authFs2 : FileSys :=
  ⟨[], [(["auth", "A", "is_enabled"], "1"), (["auth", "A", "role"], "bios-admin")]⟩

def authFs3 : FileSys :=
  ⟨[], [(["auth", "A", "is_enabled"], "1"), (["auth", "A", "role"], "bios-admin"),
        (["auth", "A", "mechanism"], "password")]⟩

/-! ## Lemmas and claim verdicts -/

theorem char_split_ne_nil (c : Char) (l : List Char) : char_split c l ≠ [] := by
  cases l with
  | nil => simp [char_split]
  | cons x xs =>
    simp only [char_split]
    cases char_split c xs with
    | nil => simp
    | cons h t =>
      by_cases hx : x = c <;> simp [hx]

theorem char_split_no_delim (c : Char) (x : List Char) (hx : c ∉ x) :
    char_split c x = [x] := by
  induction x with
  | nil => rfl
  | cons a as ih =>
    have ha : a ≠ c := fun h => hx (h ▸ List.mem_cons_self a as)
    have has : c ∉ as := fun h => hx (List.mem_cons_of_mem a h)
    simp [char_split, ih has, ha]

theorem char_split_append (c : Char) (x rest : List Char) (hx : c ∉ x) :
    char_split c (x ++ c :: rest) = x :: char_split c rest := by
  induction x with
  | nil =>
    simp only [List.nil_append, char_split]
    cases hr : char_split c rest with
    | nil => exact absurd hr (char_split_ne_nil c rest)
    | cons h t => simp
  | cons a as ih =>
    have ha : a ≠ c := fun h => hx (h ▸ List.mem_cons_self a as)
    have has : c ∉ as := fun h => hx (List.mem_cons_of_mem a h)
    simp only [List.cons_append, char_split, List.append_eq]
    rw [ih has]
    simp [ha]

theorem char_split_char_join (c : Char) (L : List (List Char)) (hL : L ≠ [])
    (h : ∀ x ∈ L, c ∉ x) : char_split c (char_join c L) = L := by
  induction L with
  | nil => exact absurd rfl hL
  | cons x xs ih =>
    cases xs with
    | nil => exact char_split_no_delim c x (h x (List.mem_cons_self x []))
    | cons y ys =>
      have hx : c ∉ x := h x (List.mem_cons_self _ _)
      have hrest : ∀ z ∈ y :: ys, c ∉ z := fun z hz => h z (List.mem_cons_of_mem x hz)
      calc char_split c (char_join c (x :: y :: ys))
          = char_split c (x ++ c :: char_join c (y :: ys)) := rfl
        _ = x :: char_split c (char_join c (y :: ys)) := char_split_append c x _ hx
        _ = x :: y :: ys := by rw [ih (by simp) hrest]

theorem split_on_join_with (c : Char) (l : List String) (h1 : l ≠ [])
    (h2 : ∀ s ∈ l, c ∉ s.data) : split_on c (join_with c l) = l := by
  have hmap : ∀ x ∈ l.map String.data, c ∉ x := by
    intro x hx
    rcases List.mem_map.mp hx with ⟨s, hs, rfl⟩
    exact h2 s hs
  have hne : l.map String.data ≠ [] := by
    cases l with
    | nil => exact absurd rfl h1
    | cons a as => simp
  show (char_split c (char_join c (l.map String.data))).map (fun d => (⟨d⟩ : String)) = l
  rw [char_split_char_join c _ hne hmap, List.map_map]
  have hid : ((fun d => (⟨d⟩ : String)) ∘ String.data) = id := by
    funext s
    rfl
  rw [hid, List.map_id]

theorem trim_of_not_ends_with_newline (s : String)
    (h : ends_with_newline s = false) : trim_end_matches_newline s = s := by
  apply String.ext
  show (s.data.reverse.dropWhile (fun c => c == '\n')).reverse = s.data
  cases hr : s.data.reverse with
  | nil =>
    have hd : s.data = [] := by
      have := congrArg List.reverse hr
      simpa using this
    simp [hr, hd]
  | cons a t =>
    have ha : (a == '\n') = false := by
      unfold ends_with_newline at h
      rw [hr] at h
      simpa using h
    have hdw : List.dropWhile (fun c => c == '\n') (a :: t) = a :: t := by
      simp [List.dropWhile, ha]
    rw [hdw, ← hr, List.reverse_reverse]

theorem trim_append_replicate (x : String) (k : Nat)
    (h : ends_with_newline x = false) :
    trim_end_matches_newline ⟨x.data ++ List.replicate k '\n'⟩ = x := by
  unfold trim_end_matches_newline
  have hrev : (x.data ++ List.replicate k '\n').reverse
      = List.replicate k '\n' ++ x.data.reverse := by
    rw [List.reverse_append, List.reverse_replicate]
  have hdrop : ∀ n : Nat, (List.replicate n '\n' ++ x.data.reverse).dropWhile
      (fun c => c == '\n') = x.data.reverse.dropWhile (fun c => c == '\n') := by
    intro n
    induction n with
    | zero => rfl
    | succ m ih => simp [List.replicate_succ, List.dropWhile, ih]
  show (⟨((x.data ++ List.replicate k '\n').reverse.dropWhile
      (fun c => c == '\n')).reverse⟩ : String) = x
  rw [hrev, hdrop k]
  have hx : x.data.reverse.dropWhile (fun c => c == '\n') = x.data.reverse := by
    cases hr : x.data.reverse with
    | nil => rfl
    | cons a t =>
      have ha : (a == '\n') = false := by
        unfold ends_with_newline at h
        rw [hr] at h
        simpa using h
      simp [List.dropWhile, ha]
  rw [hx, List.reverse_reverse]

theorem digit_val_digitChar (d : Nat) (h : d < 10) :
    digit_val (Nat.digitChar d) = some d := by
  interval_cases d <;> decide

theorem digitChar_toNat_bounds (d : Nat) (h : d < 10) :
    48 ≤ (Nat.digitChar d).toNat ∧ (Nat.digitChar d).toNat ≤ 57 := by
  interval_cases d <;> decide

theorem nat_to_digits_aux_digits (fuel : Nat) :
    ∀ n, n < fuel → ∀ c ∈ nat_to_digits_aux n fuel,
      48 ≤ c.toNat ∧ c.toNat ≤ 57 := by
  induction fuel with
  | zero => intro n hn; omega
  | succ m ih =>
    intro n hn c hc
    by_cases h10 : n < 10
    · simp only [nat_to_digits_aux, if_pos h10, List.mem_singleton] at hc
      exact hc ▸ digitChar_toNat_bounds n h10
    · simp only [nat_to_digits_aux, if_neg h10, List.mem_append,
        List.mem_singleton] at hc
      rcases hc with hc | hc
      · have hdiv : n / 10 < m := by
          have hlt : n / 10 < n := Nat.div_lt_self (by omega) (by omega)
          omega
        exact ih (n / 10) hdiv c hc
      · exact hc ▸ digitChar_toNat_bounds (n % 10) (by omega)

theorem nat_to_digits_aux_ne_nil (fuel n : Nat) (h : n < fuel) :
    nat_to_digits_aux n fuel ≠ [] := by
  cases fuel with
  | zero => omega
  | succ m =>
    by_cases h10 : n < 10 <;> simp [nat_to_digits_aux, h10]

theorem parse_digits_aux_append (a b : List Char) :
    ∀ acc, parse_digits_aux acc (a ++ b)
      = (parse_digits_aux acc a).bind (fun acc2 => parse_digits_aux acc2 b) := by
  induction a with
  | nil => intro acc; rfl
  | cons c cs ih =>
    intro acc
    simp only [List.cons_append, parse_digits_aux]
    cases digit_val c with
    | none => rfl
    | some d => exact ih (acc * 10 + d)

theorem parse_digits_aux_nat_to_digits_aux (fuel : Nat) :
    ∀ n acc, n < fuel →
      parse_digits_aux acc (nat_to_digits_aux n fuel)
        = some (acc * 10 ^ (nat_to_digits_aux n fuel).length + n) := by
  induction fuel with
  | zero => intro n _ hn; omega
  | succ m ih =>
    intro n acc hn
    by_cases h10 : n < 10
    · simp only [nat_to_digits_aux, if_pos h10, parse_digits_aux,
        digit_val_digitChar n h10, List.length_singleton]
      simp [pow_one]
    · have hdiv : n / 10 < m := by
        have hlt : n / 10 < n := Nat.div_lt_self (by omega) (by omega)
        omega
      have hmod : n % 10 < 10 := by omega
      simp only [nat_to_digits_aux, if_neg h10]
      rw [parse_digits_aux_append, ih (n / 10) acc hdiv]
      simp only [Option.some_bind, parse_digits_aux,
        digit_val_digitChar (n % 10) hmod,
        List.length_append, List.length_singleton]
      congr 1
      have hdm : 10 * (n / 10) + n % 10 = n := Nat.div_add_mod n 10
      have hexp : (acc * 10 ^ (nat_to_digits_aux (n / 10) m).length + n / 10) * 10
          + n % 10
          = acc * (10 ^ (nat_to_digits_aux (n / 10) m).length * 10)
            + (10 * (n / 10) + n % 10) := by ring
      rw [hexp, hdm, ← pow_succ]

theorem parse_nat_digits_nat_to_digits (n : Nat) :
    parse_nat_digits (nat_to_digits n) = some n := by
  unfold nat_to_digits
  cases hd : nat_to_digits_aux n (n + 1) with
  | nil => exact absurd hd (nat_to_digits_aux_ne_nil (n + 1) n (Nat.lt_succ_self n))
  | cons c cs =>
    show parse_digits_aux 0 (c :: cs) = some n
    rw [← hd, parse_digits_aux_nat_to_digits_aux (n + 1) n 0 (Nat.lt_succ_self n)]
    simp

theorem i32_from_str_to_string (v : Int) (h1 : I32_MIN_INT ≤ v)
    (h2 : v ≤ I32_MAX_INT) : i32_from_str (i32_to_string v) = .ok v := by
  simp only [I32_MIN_INT] at h1
  simp only [I32_MAX_INT] at h2
  by_cases hv : v < 0
  · rw [i32_to_string, if_pos hv]
    show i32_from_str ⟨'-' :: nat_to_digits v.natAbs⟩ = .ok v
    have hdata : (⟨'-' :: nat_to_digits v.natAbs⟩ : String).data
        = '-' :: nat_to_digits v.natAbs := rfl
    have hb : (-v ≤ (2147483648 : Int)) := by omega
    rw [i32_from_str, hdata]
    simp [parse_nat_digits_nat_to_digits, abs_of_neg hv, hb]
  · rw [i32_to_string, if_neg hv]
    cases hd : nat_to_digits v.toNat with
    | nil =>
      exact absurd hd
        (by rw [nat_to_digits]
            exact nat_to_digits_aux_ne_nil (v.toNat + 1) v.toNat
              (Nat.lt_succ_self _))
    | cons c cs =>
      have hc : 48 ≤ c.toNat ∧ c.toNat ≤ 57 := by
        apply nat_to_digits_aux_digits (v.toNat + 1) v.toNat (Nat.lt_succ_self _)
        rw [show nat_to_digits_aux v.toNat (v.toNat + 1) = nat_to_digits v.toNat
          from rfl, hd]
        exact List.mem_cons_self c cs
      have hcm : c ≠ '-' := by
        intro hcc
        rw [hcc] at hc
        simp at hc
      have hcp : c ≠ '+' := by
        intro hcc
        rw [hcc] at hc
        simp at hc
      have hb : ((v.toNat : Int) ≤ I32_MAX_INT) := by
        simp only [I32_MAX_INT]
        omega
      have hvv : ((v.toNat : Int)) = v := by omega
      rw [i32_from_str]
      simp [hcm, hcp, show (c :: cs) = nat_to_digits v.toNat from hd.symm,
        parse_nat_digits_nat_to_digits, hb, hvv]
      simp only [I32_MAX_INT]
      omega

/-! ## Filesystem lemmas -/
theorem write_path_keys (l : List (FsPath × String)) (p : FsPath) (v : String) :
    (write_path l p v).map Prod.fst = l.map Prod.fst := by
  induction l with
  | nil => rfl
  | cons e rest ih =>
    by_cases h : e.1 = p <;> simp [write_path, h, ih]

theorem lookup_path_write_path_self (l : List (FsPath × String)) (p : FsPath)
    (v : String) (h : (lookup_path l p).isSome) :
    lookup_path (write_path l p v) p = some v := by
  induction l with
  | nil => simp [lookup_path] at h
  | cons e rest ih =>
    by_cases he : e.1 = p
    · simp [write_path, he, lookup_path]
    · simp only [lookup_path, if_neg he] at h
      simp [write_path, he, lookup_path, ih h]

theorem lookup_path_write_path_other (l : List (FsPath × String)) (p q : FsPath)
    (v : String) (hq : q ≠ p) :
    lookup_path (write_path l p v) q = lookup_path l q := by
  induction l with
  | nil => rfl
  | cons e rest ih =>
    by_cases he : e.1 = p
    · have : ¬(p = q) := fun h => hq h.symm
      simp [write_path, he, lookup_path, this, ih, he ▸ this]
    · by_cases heq : e.1 = q <;> simp [write_path, he, lookup_path, heq, ih, hq]

theorem any_key_decide (l : List (FsPath × String)) (q : FsPath) :
    (l.any fun e => decide (e.1 = q)) = ((l.map Prod.fst).any fun k => decide (k = q)) := by
  induction l with
  | nil => rfl
  | cons e rest ih => simp [ih]

theorem path_exists_set_file (fs : FileSys) (p : FsPath) (v : String) (q : FsPath) :
    (fs.set_file p v).path_exists q = fs.path_exists q := by
  unfold FileSys.set_file FileSys.path_exists
  simp only
  rw [any_key_decide, write_path_keys, ← any_key_decide]

theorem lookup_path_isSome_of_eq_some (l : List (FsPath × String)) (p : FsPath)
    (w : String) (h : lookup_path l p = some w) : (lookup_path l p).isSome := by
  rw [h]
  rfl

theorem path_exists_of_lookup_path (l : List (FsPath × String)) (d : List FsPath)
    (p : FsPath) (h : (lookup_path l p).isSome) :
    (FileSys.mk d l).path_exists p = true := by
  unfold FileSys.path_exists
  simp only [Bool.or_eq_true, List.any_eq_true, decide_eq_true_eq]
  right
  induction l with
  | nil => simp [lookup_path] at h
  | cons e rest ih =>
    by_cases he : e.1 = p
    · exact ⟨e, List.mem_cons_self e rest, he⟩
    · simp only [lookup_path, if_neg he] at h
      rcases ih h with ⟨x, hx, hxp⟩
      exact ⟨x, List.mem_cons_of_mem e hx, hxp⟩

theorem path_exists_iff (fs : FileSys) (q : FsPath) :
    fs.path_exists q = true ↔ q ∈ fs.dirs ∨ q ∈ fs.files.map Prod.fst := by
  unfold FileSys.path_exists
  simp only [Bool.or_eq_true, List.any_eq_true, decide_eq_true_eq, List.mem_map]
  constructor
  · rintro (⟨x, hx, rfl⟩ | ⟨e, he, rfl⟩)
    · exact Or.inl hx
    · exact Or.inr ⟨e, he, rfl⟩
  · rintro (hq | ⟨e, he, rfl⟩)
    · exact Or.inl ⟨q, hq, rfl⟩
    · exact Or.inr ⟨e, he, rfl⟩

theorem foldl_push_filter (p : FsPath → Bool) (l : List FsPath) :
    ∀ acc, l.foldl (fun list dir => if p dir then list ++ [dir] else list) acc
      = acc ++ l.filter p := by
  induction l with
  | nil => intro acc; simp
  | cons x xs ih =>
    intro acc
    by_cases h : p x
    · rw [List.foldl_cons, if_pos h, ih (acc ++ [x])]
      have hf : List.filter p (x :: xs) = x :: List.filter p xs := by
        simp [List.filter_cons, h]
      rw [hf]
      simp [List.append_assoc]
    · simp [List.foldl_cons, if_neg h, ih acc, List.filter_cons, h]

/-! ## Codec lemmas -/
theorem split_on_ne_nil (c : Char) (s : String) : split_on c s ≠ [] := by
  unfold split_on
  intro h
  exact char_split_ne_nil c s.data (List.map_eq_nil_iff.mp h)

theorem read_attribute_property_of_lookup (fs : FileSys) (root : FsPath)
    (property : String) (w : String)
    (h : lookup_path fs.files (root ++ [property]) = some w) :
    read_attribute_property fs root property
      = .ok (trim_end_matches_newline w) := by
  have hex : fs.path_exists (root ++ [property]) = true :=
    path_exists_of_lookup_path fs.files fs.dirs _ (by rw [h]; rfl)
  unfold read_attribute_property
  simp only [hex, if_true, FileSys.lookup_file, h]

theorem read_attribute_property_missing (fs : FileSys) (root : FsPath)
    (property : String) (h : fs.path_exists (root ++ [property]) = false) :
    read_attribute_property fs root property
      = .error (.MissingFile (root ++ [property])) := by
  unfold read_attribute_property
  simp only [h, if_false, Bool.false_eq_true]

theorem try_read_attribute_property_of_lookup (fs : FileSys) (root : FsPath)
    (property : String) (w : String)
    (h : lookup_path fs.files (root ++ [property]) = some w) :
    try_read_attribute_property fs root property
      = .ok (some (trim_end_matches_newline w)) := by
  have hex : fs.path_exists (root ++ [property]) = true :=
    path_exists_of_lookup_path fs.files fs.dirs _ (by rw [h]; rfl)
  unfold try_read_attribute_property
  simp only [hex, if_true, FileSys.lookup_file, h]

theorem try_read_attribute_property_missing (fs : FileSys) (root : FsPath)
    (property : String) (h : fs.path_exists (root ++ [property]) = false) :
    try_read_attribute_property fs root property = .ok none := by
  unfold try_read_attribute_property
  simp only [h, if_false, Bool.false_eq_true]

theorem write_attribute_property_ok (fs : FileSys) (root : FsPath)
    (property v : String)
    (h : (lookup_path fs.files (root ++ [property])).isSome) :
    write_attribute_property fs root property v
      = (.ok (), fs.set_file (root ++ [property]) v) := by
  have hex : fs.path_exists (root ++ [property]) = true :=
    path_exists_of_lookup_path fs.files fs.dirs _ h
  cases hl : lookup_path fs.files (root ++ [property]) with
  | none => rw [hl] at h; simp at h
  | some w =>
    unfold write_attribute_property
    simp only [hex, if_true, FileSys.lookup_file, hl]

theorem write_attribute_property_missing (fs : FileSys) (root : FsPath)
    (property v : String) (h : fs.path_exists (root ++ [property]) = false) :
    write_attribute_property fs root property v
      = (.error (.MissingFile (root ++ [property])), fs) := by
  unfold write_attribute_property
  simp only [h, if_false, Bool.false_eq_true]

theorem lookup_set_file_self (fs : FileSys) (p : FsPath) (v : String)
    (h : (lookup_path fs.files p).isSome) :
    lookup_path (fs.set_file p v).files p = some v :=
  lookup_path_write_path_self fs.files p v h

/-! ## Erasure lemmas (a property file that is never consulted) -/
theorem lookup_path_erase (l : List (FsPath × String)) (p q : FsPath)
    (hpq : q ≠ p) :
    lookup_path (l.filter (fun e => decide (e.1 ≠ p))) q = lookup_path l q := by
  induction l with
  | nil => rfl
  | cons e rest ih =>
    rw [List.filter_cons]
    by_cases hep : e.1 = p
    · have hdec : (decide (e.1 ≠ p)) = false := by simp [hep]
      have heq : e.1 ≠ q := fun h => hpq (h ▸ hep)
      rw [hdec]
      simp only [Bool.false_eq_true, if_false]
      rw [ih]
      show lookup_path rest q = lookup_path (e :: rest) q
      simp only [lookup_path, if_neg heq]
    · have hdec : (decide (e.1 ≠ p)) = true := by simp [hep]
      rw [hdec]
      simp only [if_true]
      show lookup_path (e :: rest.filter (fun e => decide (e.1 ≠ p))) q
        = lookup_path (e :: rest) q
      by_cases heq : e.1 = q
      · simp only [lookup_path, if_pos heq]
      · simp only [lookup_path, if_neg heq, ih]

theorem any_key_erase (l : List (FsPath × String)) (p q : FsPath) (hpq : q ≠ p) :
    ((l.filter (fun e => decide (e.1 ≠ p))).any fun e => decide (e.1 = q))
      = (l.any fun e => decide (e.1 = q)) := by
  induction l with
  | nil => rfl
  | cons e rest ih =>
    rw [List.filter_cons]
    by_cases hep : e.1 = p
    · have hdec : (decide (e.1 ≠ p)) = false := by simp [hep]
      have heq : e.1 ≠ q := fun h => hpq (h ▸ hep)
      have hdq : (decide (e.1 = q)) = false := by simp [heq]
      rw [hdec]
      simp only [Bool.false_eq_true, if_false]
      rw [ih, List.any_cons, hdq, Bool.false_or]
    · have hdec : (decide (e.1 ≠ p)) = true := by simp [hep]
      rw [hdec]
      simp only [if_true, List.any_cons, ih]

theorem path_exists_erase (fs : FileSys) (p q : FsPath) (hpq : q ≠ p) :
    (fs.erase_file p).path_exists q = fs.path_exists q := by
  unfold FileSys.erase_file FileSys.path_exists
  simp only
  rw [any_key_erase fs.files p q hpq]

theorem read_attribute_property_erase (fs : FileSys) (root : FsPath)
    (p : FsPath) (property : String) (h : root ++ [property] ≠ p) :
    read_attribute_property (fs.erase_file p) root property
      = read_attribute_property fs root property := by
  unfold read_attribute_property
  rw [path_exists_erase fs p _ h]
  have hl : (fs.erase_file p).lookup_file (root ++ [property])
      = fs.lookup_file (root ++ [property]) :=
    lookup_path_erase fs.files p _ h
  rw [hl]

theorem try_read_attribute_property_erase (fs : FileSys) (root : FsPath)
    (p : FsPath) (property : String) (h : root ++ [property] ≠ p) :
    try_read_attribute_property (fs.erase_file p) root property
      = try_read_attribute_property fs root property := by
  unfold try_read_attribute_property
  rw [path_exists_erase fs p _ h]
  have hl : (fs.erase_file p).lookup_file (root ++ [property])
      = fs.lookup_file (root ++ [property]) :=
    lookup_path_erase fs.files p _ h
  rw [hl]

/-! ## Digit-string lemmas -/
theorem nat_to_digits_digits (n : Nat) :
    ∀ c ∈ nat_to_digits n, 48 ≤ c.toNat ∧ c.toNat ≤ 57 :=
  nat_to_digits_aux_digits (n + 1) n (Nat.lt_succ_self n)

theorem nat_to_digits_ne_nil (n : Nat) : nat_to_digits n ≠ [] :=
  nat_to_digits_aux_ne_nil (n + 1) n (Nat.lt_succ_self n)

theorem char_digit_ne_newline (c : Char) (h : 48 ≤ c.toNat ∧ c.toNat ≤ 57) :
    (c == '\n') = false := by
  have hne : c ≠ '\n' := by
    intro hc
    rw [hc] at h
    revert h
    decide
  simp [hne]

theorem ends_with_newline_append_digits (pre l : List Char) (hne : l ≠ [])
    (hd : ∀ c ∈ l, 48 ≤ c.toNat ∧ c.toNat ≤ 57) :
    ends_with_newline ⟨pre ++ l⟩ = false := by
  unfold ends_with_newline
  cases hr : l.reverse with
  | nil =>
    exact absurd (by simpa using congrArg List.reverse hr) hne
  | cons d ds =>
    have hdm : d ∈ l := by
      have : d ∈ l.reverse := by rw [hr]; exact List.mem_cons_self d ds
      exact List.mem_reverse.mp this
    show (match ((pre ++ l).reverse.head?) with
      | some c => c == '\n'
      | none => false) = false
    rw [List.reverse_append, hr]
    simp only [List.cons_append, List.head?_cons]
    exact char_digit_ne_newline d (hd d hdm)

theorem ends_with_newline_i32_to_string (v : Int) :
    ends_with_newline (i32_to_string v) = false := by
  unfold i32_to_string
  by_cases hv : v < 0
  · rw [if_pos hv]
    show ends_with_newline ⟨['-'] ++ nat_to_digits v.natAbs⟩ = false
    exact ends_with_newline_append_digits ['-'] _ (nat_to_digits_ne_nil _)
      (nat_to_digits_digits _)
  · rw [if_neg hv]
    show ends_with_newline ⟨[] ++ nat_to_digits v.toNat⟩ = false
    exact ends_with_newline_append_digits [] _ (nat_to_digits_ne_nil _)
      (nat_to_digits_digits _)

theorem trim_i32_to_string (v : Int) :
    trim_end_matches_newline (i32_to_string v) = i32_to_string v :=
  trim_of_not_ends_with_newline _ (ends_with_newline_i32_to_string v)

/-! ## Do-notation reduction helpers -/
theorem except_bind_ok {ε α β : Type} (a : α) (f : α → Except ε β) :
    ((Except.ok a : Except ε α) >>= f) = f a := rfl

theorem except_bind_error {ε α β : Type} (e : ε) (f : α → Except ε β) :
    ((Except.error e : Except ε α) >>= f) = Except.error e := rfl

theorem except_pure {ε α : Type} (a : α) :
    (pure a : Except ε α) = Except.ok a := rfl

/-! ## Claim C4 -/
/-- C4 counterexample: the codec strips ALL trailing line terminators,
not exactly one: a property file containing `"x\n\n"` reads back as
`"x"`, not as the claimed `"x\n"`. -/
theorem C4_counterexample :
    read_attribute_property ⟨[], [(["A", "p"], "x\n\n")]⟩ ["A"] "p" = .ok "x" ∧
    ("x" : String) ≠ "x\n" := by decide

/-- C4 (amended): a property read returns the stored content with all
trailing line terminators stripped (content `x ++ "\n"*k`, where `x`
does not end in `"\n"`, reads back as `x`, for the required and the
optional read alike); a successful write stores the raw value with no
terminator appended. -/
theorem C4_property_codec_amended :
    (∀ (fs : FileSys) (root : FsPath) (property x : String) (k : Nat),
      ends_with_newline x = false →
      lookup_path fs.files (root ++ [property])
        = some ⟨x.data ++ List.replicate k '\n'⟩ →
      read_attribute_property fs root property = .ok x) ∧
    (∀ (fs : FileSys) (root : FsPath) (property x : String) (k : Nat),
      ends_with_newline x = false →
      lookup_path fs.files (root ++ [property])
        = some ⟨x.data ++ List.replicate k '\n'⟩ →
      try_read_attribute_property fs root property = .ok (some x)) ∧
    (∀ (fs : FileSys) (root : FsPath) (property v : String),
      (lookup_path fs.files (root ++ [property])).isSome →
      (write_attribute_property fs root property v).1 = .ok () ∧
      lookup_path (write_attribute_property fs root property v).2.files
        (root ++ [property]) = some v) := by
  refine ⟨?_, ?_, ?_⟩
  · intro fs root property x k hx hl
    rw [read_attribute_property_of_lookup fs root property _ hl,
      trim_append_replicate x k hx]
  · intro fs root property x k hx hl
    rw [try_read_attribute_property_of_lookup fs root property _ hl,
      trim_append_replicate x k hx]
  · intro fs root property v h
    rw [write_attribute_property_ok fs root property v h]
    exact ⟨rfl, lookup_set_file_self fs _ v h⟩

/-- C4 witness: concrete instances of the amended codec claim. -/
theorem C4_witness :
    read_attribute_property ⟨[], [(["A", "p"], "val\n")]⟩ ["A"] "p" = .ok "val" ∧
    try_read_attribute_property ⟨[], [(["A", "p"], "val\n")]⟩ ["A"] "p"
      = .ok (some "val") ∧
    ((write_attribute_property ⟨[], [(["A", "p"], "old")]⟩ ["A"] "p" "new").1
        = .ok () ∧
      lookup_path
        (write_attribute_property ⟨[], [(["A", "p"], "old")]⟩ ["A"] "p" "new").2.files
        (["A"] ++ ["p"]) = some "new") :=
  ⟨C4_property_codec_amended.1 ⟨[], [(["A", "p"], "val\n")]⟩ ["A"] "p" "val" 1
      (by decide) (by decide),
   C4_property_codec_amended.2.1 ⟨[], [(["A", "p"], "val\n")]⟩ ["A"] "p" "val" 1
      (by decide) (by decide),
   C4_property_codec_amended.2.2 ⟨[], [(["A", "p"], "old")]⟩ ["A"] "p" "new"
      (by decide)⟩

/-! ## Claim C5 -/
/-- C5 counterexample: `is_firmware_attributes_root` only checks
`Path::exists`, so a root whose `attributes` entry is a plain file (not
a subdirectory) still validates, contradicting the claimed
"if and only if both subdirectories exist". -/
theorem C5_counterexample :
    is_firmware_attributes_root rootWithFileAttributes ["r"] = true ∧
    (["r"] ++ [PATH_ATTRIBUTES]) ∉ rootWithFileAttributes.dirs := by
  refine ⟨by decide, by decide⟩

/-- C5 (amended): `is_firmware_attributes_root p` is true iff entries
named `authentication` and `attributes` both exist under `p`, whether
as directories or as plain files (the code does not check they are
directories). -/
theorem C5_is_root_amended (fs : FileSys) (p : FsPath) :
    is_firmware_attributes_root fs p = true ↔
      ((p ++ [PATH_AUTHENTICATIONS]) ∈ fs.dirs ∨
        (p ++ [PATH_AUTHENTICATIONS]) ∈ fs.files.map Prod.fst) ∧
      ((p ++ [PATH_ATTRIBUTES]) ∈ fs.dirs ∨
        (p ++ [PATH_ATTRIBUTES]) ∈ fs.files.map Prod.fst) := by
  unfold is_firmware_attributes_root
  rw [Bool.and_eq_true, path_exists_iff, path_exists_iff]

/-! ## Claim C6 -/
/-- C6: `autodetect_root` never fails (it is a total function into a
list); if the well-known base does not exist it returns `[]`; if the
base itself validates it returns exactly the singleton of the base,
without scanning subdirectories; otherwise it returns exactly the
children of the base that validate, in enumeration order (a filter of
the `read_dir` listing). -/
theorem C6_autodetect_root_spec (fs : FileSys) :
    autodetect_root fs =
      (if fs.path_exists PATH_SYSFS_FIRMWARE_ATTRIBUTES = true then
        (if is_firmware_attributes_root fs PATH_SYSFS_FIRMWARE_ATTRIBUTES = true then
          [PATH_SYSFS_FIRMWARE_ATTRIBUTES]
        else
          (fs.read_dir PATH_SYSFS_FIRMWARE_ATTRIBUTES).filter
            (fun dir => is_firmware_attributes_root fs dir))
      else []) := by
  unfold autodetect_root
  by_cases h1 : fs.path_exists PATH_SYSFS_FIRMWARE_ATTRIBUTES = true
  · rw [if_pos h1, if_pos h1]
    by_cases h2 : is_firmware_attributes_root fs PATH_SYSFS_FIRMWARE_ATTRIBUTES = true
    · rw [if_pos h2, if_pos h2]
    · rw [if_neg h2, if_neg h2]
      simpa using foldl_push_filter
        (fun dir => is_firmware_attributes_root fs dir)
        (fs.read_dir PATH_SYSFS_FIRMWARE_ATTRIBUTES) []
  · rw [if_neg h1, if_neg h1]

/-! ## Claim C7 -/
/-- C7: an Integer attribute loaded with `min_value`, `max_value` and
`scalar_increment` all absent gets (0, 2147483647, 1); a String
attribute loaded with `min_length` and `max_length` absent gets
(0, 128). -/
theorem C7_defaulting (fs : FileSys) (path : FsPath) :
    (∀ a : IntegerAttribute,
      fs.path_exists (path ++ ["min_value"]) = false →
      fs.path_exists (path ++ ["max_value"]) = false →
      fs.path_exists (path ++ ["scalar_increment"]) = false →
      IntegerAttribute.try_from fs path = .ok a →
      a.min_value = 0 ∧ a.max_value = 2147483647 ∧ a.scalar_increment = 1) ∧
    (∀ a : StringAttribute,
      fs.path_exists (path ++ ["min_length"]) = false →
      fs.path_exists (path ++ ["max_length"]) = false →
      StringAttribute.try_from fs path = .ok a →
      a.min_length = 0 ∧ a.max_length = 128) := by
  constructor
  · intro a h1 h2 h3 hload
    unfold IntegerAttribute.try_from at hload
    rw [try_read_attribute_property_missing fs path "min_value" h1,
      try_read_attribute_property_missing fs path "max_value" h2,
      try_read_attribute_property_missing fs path "scalar_increment" h3] at hload
    cases hc : CommonAttribute.try_from_i32 fs path with
    | error e =>
      rw [hc, except_bind_error] at hload
      exact absurd hload (by simp)
    | ok c =>
      rw [hc] at hload
      simp only [except_bind_ok, option_transpose, Option.map_none', except_pure,
        Option.getD] at hload
      injection hload with h
      rw [← h]
      exact ⟨rfl, rfl, rfl⟩
  · intro a h1 h2 hload
    unfold StringAttribute.try_from at hload
    rw [try_read_attribute_property_missing fs path "min_length" h1,
      try_read_attribute_property_missing fs path "max_length" h2] at hload
    cases hc : CommonAttribute.try_from_string fs path with
    | error e =>
      rw [hc, except_bind_error] at hload
      exact absurd hload (by simp)
    | ok c =>
      rw [hc] at hload
      cases hh : try_read_attribute_property fs path "possible_values" with
      | error e =>
        rw [hh] at hload
        simp only [except_bind_ok, option_transpose, Option.map_none', except_pure,
          except_bind_error, Option.getD] at hload
        exact absurd hload (by simp)
      | ok hv =>
        rw [hh] at hload
        simp only [except_bind_ok, option_transpose, Option.map_none', except_pure,
          Option.getD] at hload
        injection hload with h
        rw [← h]
        exact ⟨rfl, rfl⟩

/-- C7 witness: loading from an empty filesystem model (all optional
properties absent) yields the documented defaults. -/
theorem C7_witness :
    (sampleIntAttr.min_value = 0 ∧ sampleIntAttr.max_value = 2147483647 ∧
      sampleIntAttr.scalar_increment = 1) ∧
    (sampleStringAttr.min_length = 0 ∧ sampleStringAttr.max_length = 128) :=
  ⟨(C7_defaulting sampleFsEmpty ["A"]).1 sampleIntAttr
      (by decide) (by decide) (by decide) (by decide),
   (C7_defaulting sampleFsEmpty ["A"]).2 sampleStringAttr
      (by decide) (by decide) (by decide)⟩

/-! ## Claim C9 -/
/-- C9: for every attribute variant, `write_current_value` leaves the
cache cleared even when the underlying property write fails; when the
`current_value` file does not pre-exist the error is `MissingFile` on
that path, the filesystem is unchanged, and the cache is empty, so the
next `current_value` call re-reads storage. -/
theorem C9_failed_write_clears_cache :
    (∀ (a : EnumerationAttribute) (fs : FileSys) (v : String),
      (a.write_current_value fs v).2.2 = none ∧
      (fs.path_exists (a.common_attribute.path ++ [PROPERTY_CURRENT_VALUE]) = false →
        (a.write_current_value fs v).1
          = .error (.MissingFile (a.common_attribute.path ++ [PROPERTY_CURRENT_VALUE])) ∧
        (a.write_current_value fs v).2.1 = fs)) ∧
    (∀ (a : IntegerAttribute) (fs : FileSys) (v : Int),
      (a.write_current_value fs v).2.2 = none ∧
      (fs.path_exists (a.common_attribute.path ++ [PROPERTY_CURRENT_VALUE]) = false →
        (a.write_current_value fs v).1
          = .error (.MissingFile (a.common_attribute.path ++ [PROPERTY_CURRENT_VALUE])) ∧
        (a.write_current_value fs v).2.1 = fs)) ∧
    (∀ (a : StringAttribute) (fs : FileSys) (v : String),
      (a.write_current_value fs v).2.2 = none ∧
      (fs.path_exists (a.common_attribute.path ++ [PROPERTY_CURRENT_VALUE]) = false →
        (a.write_current_value fs v).1
          = .error (.MissingFile (a.common_attribute.path ++ [PROPERTY_CURRENT_VALUE])) ∧
        (a.write_current_value fs v).2.1 = fs)) ∧
    (∀ (a : OrderedListAttribute) (fs : FileSys) (v : List String),
      (a.write_current_value fs v).2.2 = none ∧
      (fs.path_exists (a.common_attribute.path ++ [PROPERTY_CURRENT_VALUE]) = false →
        (a.write_current_value fs v).1
          = .error (.MissingFile (a.common_attribute.path ++ [PROPERTY_CURRENT_VALUE])) ∧
        (a.write_current_value fs v).2.1 = fs)) ∧
    (∀ (a : EnumerationListAttribute) (fs : FileSys) (v : List String),
      (a.write_current_value fs v).2.2 = none ∧
      (fs.path_exists (a.common_attribute.path ++ [PROPERTY_CURRENT_VALUE]) = false →
        (a.write_current_value fs v).1
          = .error (.MissingFile (a.common_attribute.path ++ [PROPERTY_CURRENT_VALUE])) ∧
        (a.write_current_value fs v).2.1 = fs)) := by
  refine ⟨fun a fs v => ⟨rfl, fun h => ?_⟩, fun a fs v => ⟨rfl, fun h => ?_⟩,
    fun a fs v => ⟨rfl, fun h => ?_⟩, fun a fs v => ⟨rfl, fun h => ?_⟩,
    fun a fs v => ⟨rfl, fun h => ?_⟩⟩
  · simp only [EnumerationAttribute.write_current_value,
      write_attribute_property_missing fs _ _ v h]
    exact ⟨trivial, trivial⟩
  · simp only [IntegerAttribute.write_current_value,
      write_attribute_property_missing fs _ _ _ h]
    exact ⟨trivial, trivial⟩
  · simp only [StringAttribute.write_current_value,
      write_attribute_property_missing fs _ _ v h]
    exact ⟨trivial, trivial⟩
  · simp only [OrderedListAttribute.write_current_value,
      write_attribute_property_missing fs _ _ _ h]
    exact ⟨trivial, trivial⟩
  · simp only [EnumerationListAttribute.write_current_value,
      write_attribute_property_missing fs _ _ _ h]
    exact ⟨trivial, trivial⟩

/-- C9 witness: writing to an empty filesystem model (no `current_value`
file) fails with `MissingFile` while the cache is left cleared, for each
variant at a concrete input. -/
theorem C9_witness :
    ((sampleEnumAttr.write_current_value sampleFsEmpty "x").2.2 = none ∧
      (sampleEnumAttr.write_current_value sampleFsEmpty "x").1
        = .error (.MissingFile (["A"] ++ [PROPERTY_CURRENT_VALUE]))) ∧
    ((sampleIntAttr.write_current_value sampleFsEmpty 7).2.2 = none ∧
      (sampleIntAttr.write_current_value sampleFsEmpty 7).1
        = .error (.MissingFile (["A"] ++ [PROPERTY_CURRENT_VALUE]))) ∧
    ((sampleOrderedAttr.write_current_value sampleFsEmpty ["a"]).2.2 = none ∧
      (sampleOrderedAttr.write_current_value sampleFsEmpty ["a"]).1
        = .error (.MissingFile (["A"] ++ [PROPERTY_CURRENT_VALUE]))) :=
  ⟨⟨(C9_failed_write_clears_cache.1 sampleEnumAttr sampleFsEmpty "x").1,
    ((C9_failed_write_clears_cache.1 sampleEnumAttr sampleFsEmpty "x").2 (by decide)).1⟩,
   ⟨(C9_failed_write_clears_cache.2.1 sampleIntAttr sampleFsEmpty 7).1,
    ((C9_failed_write_clears_cache.2.1 sampleIntAttr sampleFsEmpty 7).2 (by decide)).1⟩,
   ⟨(C9_failed_write_clears_cache.2.2.2.1 sampleOrderedAttr sampleFsEmpty ["a"]).1,
    ((C9_failed_write_clears_cache.2.2.2.1 sampleOrderedAttr sampleFsEmpty ["a"]).2
      (by decide)).1⟩⟩

/-! ## Claim C10 -/
/-- C10: the OrderedList and EnumerationList reads never produce the
empty sequence (splitting always yields at least one segment); in
particular an empty stored string decodes to `[""]`, and writing the
empty sequence (which encodes to `""`) then reading back with the cache
cleared yields `[""]`, not `[]`. -/
theorem C10_list_values_nonempty :
    (∀ (a : OrderedListAttribute) (fs : FileSys) (l : List String)
        (c2 : Option (List String)),
      a.current_value fs none = (.ok l, c2) → l ≠ []) ∧
    (∀ (a : EnumerationListAttribute) (fs : FileSys) (l : List String)
        (c2 : Option (List String)),
      a.current_value fs none = (.ok l, c2) → l ≠ []) ∧
    (∀ (a : OrderedListAttribute) (fs : FileSys),
      lookup_path fs.files (a.common_attribute.path ++ [PROPERTY_CURRENT_VALUE])
        = some "" →
      (a.current_value fs none).1 = .ok [""]) ∧
    (∀ (a : OrderedListAttribute) (fs : FileSys),
      (lookup_path fs.files (a.common_attribute.path ++ [PROPERTY_CURRENT_VALUE])).isSome →
      (a.current_value (a.write_current_value fs []).2.1
        (a.write_current_value fs []).2.2).1 = .ok [""]) ∧
    (∀ (a : EnumerationListAttribute) (fs : FileSys),
      (lookup_path fs.files (a.common_attribute.path ++ [PROPERTY_CURRENT_VALUE])).isSome →
      (a.current_value (a.write_current_value fs []).2.1
        (a.write_current_value fs []).2.2).1 = .ok [""]) := by
  refine ⟨?_, ?_, ?_, ?_, ?_⟩
  · intro a fs l c2 h
    unfold OrderedListAttribute.current_value current_value_cache_or at h
    cases hr : read_attribute_property fs a.common_attribute.path
        PROPERTY_CURRENT_VALUE with
    | error e => rw [hr] at h; simp at h
    | ok s =>
      rw [hr] at h
      simp only [Prod.mk.injEq] at h
      obtain ⟨h1, _⟩ := h
      injection h1 with h1
      rw [← h1]
      exact split_on_ne_nil _ _
  · intro a fs l c2 h
    unfold EnumerationListAttribute.current_value current_value_cache_or at h
    cases hr : read_attribute_property fs a.common_attribute.path
        PROPERTY_CURRENT_VALUE with
    | error e => rw [hr] at h; simp at h
    | ok s =>
      rw [hr] at h
      simp only [Prod.mk.injEq] at h
      obtain ⟨h1, _⟩ := h
      injection h1 with h1
      rw [← h1]
      exact split_on_ne_nil _ _
  · intro a fs h
    unfold OrderedListAttribute.current_value
    rw [read_attribute_property_of_lookup fs _ _ "" h]
    rfl
  · intro a fs h
    simp only [OrderedListAttribute.write_current_value,
      write_attribute_property_ok fs _ _ _ h]
    unfold OrderedListAttribute.current_value
    rw [read_attribute_property_of_lookup _ _ _ _ (lookup_set_file_self fs _ _ h)]
    rfl
  · intro a fs h
    simp only [EnumerationListAttribute.write_current_value,
      write_attribute_property_ok fs _ _ _ h]
    unfold EnumerationListAttribute.current_value
    rw [read_attribute_property_of_lookup _ _ _ _ (lookup_set_file_self fs _ _ h)]
    rfl

/-- C10 witness: concrete instances of the nonemptiness and the
empty-write round trip. -/
theorem C10_witness :
    (["init"] : List String) ≠ [] ∧
    (sampleOrderedAttr.current_value
      (sampleOrderedAttr.write_current_value sampleFsA []).2.1
      (sampleOrderedAttr.write_current_value sampleFsA []).2.2).1 = .ok [""] ∧
    (sampleEnumListAttr.current_value
      (sampleEnumListAttr.write_current_value sampleFsA []).2.1
      (sampleEnumListAttr.write_current_value sampleFsA []).2.2).1 = .ok [""] :=
  ⟨C10_list_values_nonempty.1 sampleOrderedAttr sampleFsA ["init"] (some ["init"])
      (by decide),
   C10_list_values_nonempty.2.2.2.1 sampleOrderedAttr sampleFsA (by decide),
   C10_list_values_nonempty.2.2.2.2 sampleEnumListAttr sampleFsA (by decide)⟩

/-! ## Claim C1 -/
/-- C1 counterexample: the round trip fails within the declared
constraints.  A String attribute with the default length bounds
(0, 128) accepts `"a\n"` (length 2), but writing it and reading back
with the cache cleared yields `"a"`: the read strips trailing line
terminators, so the raw string does not pass through unchanged. -/
theorem C1_counterexample :
    sampleStringAttr.min_length ≤ "a\n".length ∧
    "a\n".length ≤ sampleStringAttr.max_length ∧
    (sampleStringAttr.write_current_value sampleFsA "a\n").1 = .ok () ∧
    (sampleStringAttr.current_value
      (sampleStringAttr.write_current_value sampleFsA "a\n").2.1
      (sampleStringAttr.write_current_value sampleFsA "a\n").2.2).1 = .ok "a" ∧
    ("a" : String) ≠ "a\n" := by
  refine ⟨by decide, by decide, by decide, by decide, by decide⟩

/-- C1 (amended): with the `current_value` file pre-existing, writing
`v` and then reading back (the write itself clears the cache) yields
`v` for every variant, provided the encoded string does not end in the
line terminator: unconditionally for Integer over the `i32` range
(decimal strings never end in `'\n'`), for Enumeration and String when
`v` does not end in `'\n'`, and for OrderedList / EnumerationList when
the list is nonempty, no element contains the variant's delimiter
(`';'` / `':'`), and the joined string does not end in `'\n'`. -/
theorem C1_roundtrip_amended :
    (∀ (a : EnumerationAttribute) (fs : FileSys) (v : String),
      (lookup_path fs.files (a.common_attribute.path ++ [PROPERTY_CURRENT_VALUE])).isSome →
      ends_with_newline v = false →
      (a.write_current_value fs v).1 = .ok () ∧
      (a.current_value (a.write_current_value fs v).2.1
        (a.write_current_value fs v).2.2).1 = .ok v) ∧
    (∀ (a : IntegerAttribute) (fs : FileSys) (v : Int),
      (lookup_path fs.files (a.common_attribute.path ++ [PROPERTY_CURRENT_VALUE])).isSome →
      I32_MIN_INT ≤ v → v ≤ I32_MAX_INT →
      (a.write_current_value fs v).1 = .ok () ∧
      (a.current_value (a.write_current_value fs v).2.1
        (a.write_current_value fs v).2.2).1 = .ok v) ∧
    (∀ (a : StringAttribute) (fs : FileSys) (v : String),
      (lookup_path fs.files (a.common_attribute.path ++ [PROPERTY_CURRENT_VALUE])).isSome →
      ends_with_newline v = false →
      (a.write_current_value fs v).1 = .ok () ∧
      (a.current_value (a.write_current_value fs v).2.1
        (a.write_current_value fs v).2.2).1 = .ok v) ∧
    (∀ (a : OrderedListAttribute) (fs : FileSys) (v : List String),
      (lookup_path fs.files (a.common_attribute.path ++ [PROPERTY_CURRENT_VALUE])).isSome →
      v ≠ [] →
      (∀ s ∈ v, POSSIBLE_VALUES_DELIMITER ∉ s.data) →
      ends_with_newline (join_with POSSIBLE_VALUES_DELIMITER v) = false →
      (a.write_current_value fs v).1 = .ok () ∧
      (a.current_value (a.write_current_value fs v).2.1
        (a.write_current_value fs v).2.2).1 = .ok v) ∧
    (∀ (a : EnumerationListAttribute) (fs : FileSys) (v : List String),
      (lookup_path fs.files (a.common_attribute.path ++ [PROPERTY_CURRENT_VALUE])).isSome →
      v ≠ [] →
      (∀ s ∈ v, ENUMERATION_VALUES_DELIMITER ∉ s.data) →
      ends_with_newline (join_with ENUMERATION_VALUES_DELIMITER v) = false →
      (a.write_current_value fs v).1 = .ok () ∧
      (a.current_value (a.write_current_value fs v).2.1
        (a.write_current_value fs v).2.2).1 = .ok v) := by
  refine ⟨?_, ?_, ?_, ?_, ?_⟩
  · intro a fs v h hnl
    have hw := write_attribute_property_ok fs a.common_attribute.path
      PROPERTY_CURRENT_VALUE v h
    constructor
    · show (write_attribute_property fs a.common_attribute.path
        PROPERTY_CURRENT_VALUE v).1 = .ok ()
      rw [hw]
    · show (a.current_value (write_attribute_property fs a.common_attribute.path
        PROPERTY_CURRENT_VALUE v).2 none).1 = .ok v
      rw [hw]
      unfold EnumerationAttribute.current_value
      rw [read_attribute_property_of_lookup _ _ _ v (lookup_set_file_self fs _ v h),
        trim_of_not_ends_with_newline v hnl]
      rfl
  · intro a fs v h hmin hmax
    have hw := write_attribute_property_ok fs a.common_attribute.path
      PROPERTY_CURRENT_VALUE (i32_to_string v) h
    constructor
    · show (write_attribute_property fs a.common_attribute.path
        PROPERTY_CURRENT_VALUE (i32_to_string v)).1 = .ok ()
      rw [hw]
    · show (a.current_value (write_attribute_property fs a.common_attribute.path
        PROPERTY_CURRENT_VALUE (i32_to_string v)).2 none).1 = .ok v
      rw [hw]
      unfold IntegerAttribute.current_value
      rw [read_attribute_property_of_lookup _ _ _ _ (lookup_set_file_self fs _ _ h),
        trim_i32_to_string v]
      show (current_value_cache_or none (i32_from_str (i32_to_string v))).1 = .ok v
      rw [i32_from_str_to_string v hmin hmax]
      rfl
  · intro a fs v h hnl
    have hw := write_attribute_property_ok fs a.common_attribute.path
      PROPERTY_CURRENT_VALUE v h
    constructor
    · show (write_attribute_property fs a.common_attribute.path
        PROPERTY_CURRENT_VALUE v).1 = .ok ()
      rw [hw]
    · show (a.current_value (write_attribute_property fs a.common_attribute.path
        PROPERTY_CURRENT_VALUE v).2 none).1 = .ok v
      rw [hw]
      unfold StringAttribute.current_value
      rw [read_attribute_property_of_lookup _ _ _ v (lookup_set_file_self fs _ v h),
        trim_of_not_ends_with_newline v hnl]
      rfl
  · intro a fs v h hne hdel hnl
    have hw := write_attribute_property_ok fs a.common_attribute.path
      PROPERTY_CURRENT_VALUE (join_with POSSIBLE_VALUES_DELIMITER v) h
    constructor
    · show (write_attribute_property fs a.common_attribute.path
        PROPERTY_CURRENT_VALUE (join_with POSSIBLE_VALUES_DELIMITER v)).1 = .ok ()
      rw [hw]
    · show (a.current_value (write_attribute_property fs a.common_attribute.path
        PROPERTY_CURRENT_VALUE (join_with POSSIBLE_VALUES_DELIMITER v)).2 none).1
        = .ok v
      rw [hw]
      unfold OrderedListAttribute.current_value
      rw [read_attribute_property_of_lookup _ _ _ _ (lookup_set_file_self fs _ _ h),
        trim_of_not_ends_with_newline _ hnl]
      show (current_value_cache_or none
        (Except.ok (split_on POSSIBLE_VALUES_DELIMITER
          (join_with POSSIBLE_VALUES_DELIMITER v)))).1 = .ok v
      rw [split_on_join_with POSSIBLE_VALUES_DELIMITER v hne hdel]
      rfl
  · intro a fs v h hne hdel hnl
    have hw := write_attribute_property_ok fs a.common_attribute.path
      PROPERTY_CURRENT_VALUE (join_with ENUMERATION_VALUES_DELIMITER v) h
    constructor
    · show (write_attribute_property fs a.common_attribute.path
        PROPERTY_CURRENT_VALUE (join_with ENUMERATION_VALUES_DELIMITER v)).1 = .ok ()
      rw [hw]
    · show (a.current_value (write_attribute_property fs a.common_attribute.path
        PROPERTY_CURRENT_VALUE (join_with ENUMERATION_VALUES_DELIMITER v)).2 none).1
        = .ok v
      rw [hw]
      unfold EnumerationListAttribute.current_value
      rw [read_attribute_property_of_lookup _ _ _ _ (lookup_set_file_self fs _ _ h),
        trim_of_not_ends_with_newline _ hnl]
      show (current_value_cache_or none
        (Except.ok (split_on ENUMERATION_VALUES_DELIMITER
          (join_with ENUMERATION_VALUES_DELIMITER v)))).1 = .ok v
      rw [split_on_join_with ENUMERATION_VALUES_DELIMITER v hne hdel]
      rfl

/-- C1 witness: concrete round trips for all five variants. -/
theorem C1_witness :
    ((sampleEnumAttr.write_current_value sampleFsA "On").1 = .ok () ∧
      (sampleEnumAttr.current_value
        (sampleEnumAttr.write_current_value sampleFsA "On").2.1
        (sampleEnumAttr.write_current_value sampleFsA "On").2.2).1 = .ok "On") ∧
    ((sampleIntAttr.write_current_value sampleFsA 42).1 = .ok () ∧
      (sampleIntAttr.current_value
        (sampleIntAttr.write_current_value sampleFsA 42).2.1
        (sampleIntAttr.write_current_value sampleFsA 42).2.2).1 = .ok 42) ∧
    ((sampleStringAttr.write_current_value sampleFsA "abc").1 = .ok () ∧
      (sampleStringAttr.current_value
        (sampleStringAttr.write_current_value sampleFsA "abc").2.1
        (sampleStringAttr.write_current_value sampleFsA "abc").2.2).1 = .ok "abc") ∧
    ((sampleOrderedAttr.write_current_value sampleFsA ["a", "b"]).1 = .ok () ∧
      (sampleOrderedAttr.current_value
        (sampleOrderedAttr.write_current_value sampleFsA ["a", "b"]).2.1
        (sampleOrderedAttr.write_current_value sampleFsA ["a", "b"]).2.2).1
        = .ok ["a", "b"]) ∧
    ((sampleEnumListAttr.write_current_value sampleFsA ["x", "y"]).1 = .ok () ∧
      (sampleEnumListAttr.current_value
        (sampleEnumListAttr.write_current_value sampleFsA ["x", "y"]).2.1
        (sampleEnumListAttr.write_current_value sampleFsA ["x", "y"]).2.2).1
        = .ok ["x", "y"]) :=
  ⟨C1_roundtrip_amended.1 sampleEnumAttr sampleFsA "On" (by decide) (by decide),
   C1_roundtrip_amended.2.1 sampleIntAttr sampleFsA 42 (by decide) (by decide)
     (by decide),
   C1_roundtrip_amended.2.2.1 sampleStringAttr sampleFsA "abc" (by decide)
     (by decide),
   C1_roundtrip_amended.2.2.2.1 sampleOrderedAttr sampleFsA ["a", "b"] (by decide)
     (by decide) (by decide) (by decide),
   C1_roundtrip_amended.2.2.2.2 sampleEnumListAttr sampleFsA ["x", "y"] (by decide)
     (by decide) (by decide) (by decide)⟩

/-! ## Claim C2 -/
/-- C2: for every variant, after a successful `write_current_value(v)`
the cache is empty, and the next `current_value` call decodes whatever
is in storage at read time: if storage holds `w` (for instance after an
external mutation), the read returns the decode of `w`, not `v`. -/
theorem C2_cache_coherence :
    (∀ (a : EnumerationAttribute) (fs : FileSys) (v : String),
      (a.write_current_value fs v).1 = .ok () →
      (a.write_current_value fs v).2.2 = none ∧
      ∀ (fs2 : FileSys) (w : String),
        lookup_path fs2.files (a.common_attribute.path ++ [PROPERTY_CURRENT_VALUE])
          = some w →
        (a.current_value fs2 (a.write_current_value fs v).2.2).1
          = .ok (trim_end_matches_newline w)) ∧
    (∀ (a : IntegerAttribute) (fs : FileSys) (v : Int),
      (a.write_current_value fs v).1 = .ok () →
      (a.write_current_value fs v).2.2 = none ∧
      ∀ (fs2 : FileSys) (w : String) (u : Int),
        lookup_path fs2.files (a.common_attribute.path ++ [PROPERTY_CURRENT_VALUE])
          = some w →
        i32_from_str (trim_end_matches_newline w) = .ok u →
        (a.current_value fs2 (a.write_current_value fs v).2.2).1 = .ok u) ∧
    (∀ (a : StringAttribute) (fs : FileSys) (v : String),
      (a.write_current_value fs v).1 = .ok () →
      (a.write_current_value fs v).2.2 = none ∧
      ∀ (fs2 : FileSys) (w : String),
        lookup_path fs2.files (a.common_attribute.path ++ [PROPERTY_CURRENT_VALUE])
          = some w →
        (a.current_value fs2 (a.write_current_value fs v).2.2).1
          = .ok (trim_end_matches_newline w)) ∧
    (∀ (a : OrderedListAttribute) (fs : FileSys) (v : List String),
      (a.write_current_value fs v).1 = .ok () →
      (a.write_current_value fs v).2.2 = none ∧
      ∀ (fs2 : FileSys) (w : String),
        lookup_path fs2.files (a.common_attribute.path ++ [PROPERTY_CURRENT_VALUE])
          = some w →
        (a.current_value fs2 (a.write_current_value fs v).2.2).1
          = .ok (split_on POSSIBLE_VALUES_DELIMITER (trim_end_matches_newline w))) ∧
    (∀ (a : EnumerationListAttribute) (fs : FileSys) (v : List String),
      (a.write_current_value fs v).1 = .ok () →
      (a.write_current_value fs v).2.2 = none ∧
      ∀ (fs2 : FileSys) (w : String),
        lookup_path fs2.files (a.common_attribute.path ++ [PROPERTY_CURRENT_VALUE])
          = some w →
        (a.current_value fs2 (a.write_current_value fs v).2.2).1
          = .ok (split_on ENUMERATION_VALUES_DELIMITER (trim_end_matches_newline w))) := by
  refine ⟨?_, ?_, ?_, ?_, ?_⟩
  · intro a fs v _
    refine ⟨rfl, ?_⟩
    intro fs2 w hw
    show (a.current_value fs2 none).1 = .ok (trim_end_matches_newline w)
    unfold EnumerationAttribute.current_value
    rw [read_attribute_property_of_lookup _ _ _ w hw]
    rfl
  · intro a fs v _
    refine ⟨rfl, ?_⟩
    intro fs2 w u hw hparse
    show (a.current_value fs2 none).1 = .ok u
    unfold IntegerAttribute.current_value
    rw [read_attribute_property_of_lookup _ _ _ w hw]
    show (current_value_cache_or none
      (i32_from_str (trim_end_matches_newline w))).1 = .ok u
    rw [hparse]
    rfl
  · intro a fs v _
    refine ⟨rfl, ?_⟩
    intro fs2 w hw
    show (a.current_value fs2 none).1 = .ok (trim_end_matches_newline w)
    unfold StringAttribute.current_value
    rw [read_attribute_property_of_lookup _ _ _ w hw]
    rfl
  · intro a fs v _
    refine ⟨rfl, ?_⟩
    intro fs2 w hw
    show (a.current_value fs2 none).1
      = .ok (split_on POSSIBLE_VALUES_DELIMITER (trim_end_matches_newline w))
    unfold OrderedListAttribute.current_value
    rw [read_attribute_property_of_lookup _ _ _ w hw]
    rfl
  · intro a fs v _
    refine ⟨rfl, ?_⟩
    intro fs2 w hw
    show (a.current_value fs2 none).1
      = .ok (split_on ENUMERATION_VALUES_DELIMITER (trim_end_matches_newline w))
    unfold EnumerationListAttribute.current_value
    rw [read_attribute_property_of_lookup _ _ _ w hw]
    rfl

/-- C2 witness: concrete instances where storage was externally set to
a different value between the write and the read, for each variant. -/
theorem C2_witness :
    (sampleEnumAttr.write_current_value sampleFsA "v").2.2 = none ∧
    (sampleEnumAttr.current_value sampleFsExt
      (sampleEnumAttr.write_current_value sampleFsA "v").2.2).1 = .ok "ext" ∧
    (sampleIntAttr.current_value sampleFsExt7
      (sampleIntAttr.write_current_value sampleFsA 1).2.2).1 = .ok 7 ∧
    (sampleStringAttr.current_value sampleFsExt
      (sampleStringAttr.write_current_value sampleFsA "v").2.2).1 = .ok "ext" ∧
    (sampleOrderedAttr.current_value sampleFsExt
      (sampleOrderedAttr.write_current_value sampleFsA ["v"]).2.2).1 = .ok ["ext"] ∧
    (sampleEnumListAttr.current_value sampleFsExt
      (sampleEnumListAttr.write_current_value sampleFsA ["v"]).2.2).1 = .ok ["ext"] :=
  ⟨(C2_cache_coherence.1 sampleEnumAttr sampleFsA "v" (by decide)).1,
   (C2_cache_coherence.1 sampleEnumAttr sampleFsA "v" (by decide)).2
     sampleFsExt "ext" (by decide),
   (C2_cache_coherence.2.1 sampleIntAttr sampleFsA 1 (by decide)).2
     sampleFsExt7 "7" 7 (by decide) (by decide),
   (C2_cache_coherence.2.2.1 sampleStringAttr sampleFsA "v" (by decide)).2
     sampleFsExt "ext" (by decide),
   (C2_cache_coherence.2.2.2.1 sampleOrderedAttr sampleFsA ["v"] (by decide)).2
     sampleFsExt "ext" (by decide),
   (C2_cache_coherence.2.2.2.2 sampleEnumListAttr sampleFsA ["v"] (by decide)).2
     sampleFsExt "ext" (by decide)⟩

/-! ## Claim C3 -/
theorem append_singleton_ne (root : FsPath) (x y : String) (hxy : x ≠ y) :
    root ++ [x] ≠ root ++ [y] := by
  intro h
  exact hxy (by simpa using List.append_cancel_left h)

/-- C3: an attribute whose name is in the allow-list (exactly
`["BootOrder"]`) and whose `type` property reads `"enumeration"` is
classified as the EnumerationList variant; its `current_value` decodes
the stored string by splitting on `':'`; its candidate set is the
`possible_values` property split on `';'`; and the `elements` property
is not consulted (erasing it changes nothing). -/
theorem C3_quirk_reclassification (fs : FileSys) (path : FsPath)
    (a : EnumerationListAttribute)
    (hdir : (fs.path_exists path && fs.is_dir path) = true)
    (hname : attribute_name path = "BootOrder")
    (htype : read_attribute_property fs path "type" = .ok "enumeration")
    (hload : EnumerationListAttribute.try_from fs path = .ok a) :
    Attribute.try_from fs path = .ok (.EnumerationList a) ∧
    a.common_attribute.path = path ∧
    (∀ (fs2 : FileSys) (w : String),
      lookup_path fs2.files (path ++ [PROPERTY_CURRENT_VALUE]) = some w →
      (a.current_value fs2 none).1
        = .ok (split_on ENUMERATION_VALUES_DELIMITER (trim_end_matches_newline w))) ∧
    (∀ op : Option String,
      try_read_attribute_property fs path "possible_values" = .ok op →
      a.possible_values
        = (op.map (fun s => split_on POSSIBLE_VALUES_DELIMITER s)).getD []) ∧
    Attribute.try_from (fs.erase_file (path ++ ["elements"])) path
      = .ok (.EnumerationList a) := by
  have hmain : ∀ (g : FileSys),
      (g.path_exists path && g.is_dir path) = true →
      read_attribute_property g path "type" = .ok "enumeration" →
      EnumerationListAttribute.try_from g path = .ok a →
      Attribute.try_from g path = .ok (.EnumerationList a) := by
    intro g hgdir hgtype hgload
    have hat : attribute_type g path = .ok TYPE_ENUMERATION_LIST := by
      unfold attribute_type
      rw [hgtype, except_bind_ok,
        if_pos (by refine ⟨rfl, ?_⟩; rw [hname]; decide)]
      rfl
    unfold Attribute.try_from
    rw [if_pos hgdir, hat, except_bind_ok, if_neg (by decide), if_neg (by decide),
      if_neg (by decide), if_neg (by decide), if_pos rfl, hgload]
    rfl
  have hinv := hload
  unfold EnumerationListAttribute.try_from at hinv
  cases h1 : try_read_attribute_property fs path PROPERTY_DEFAULT_VALUE with
  | error e => rw [h1, except_bind_error] at hinv; exact absurd hinv (by simp)
  | ok dv =>
    rw [h1, except_bind_ok] at hinv
    cases h2 : try_read_attribute_property fs path PROPERTY_DISPLAY_NAME with
    | error e => rw [h2, except_bind_error] at hinv; exact absurd hinv (by simp)
    | ok dn =>
      rw [h2, except_bind_ok] at hinv
      cases h3 : try_read_attribute_property fs path "display_name_language_code" with
      | error e => rw [h3, except_bind_error] at hinv; exact absurd hinv (by simp)
      | ok dlc =>
        rw [h3, except_bind_ok] at hinv
        cases h4 : try_read_attribute_property fs path "possible_values" with
        | error e => rw [h4, except_bind_error] at hinv; exact absurd hinv (by simp)
        | ok pv =>
          rw [h4, except_bind_ok, except_pure] at hinv
          injection hinv with hR
          refine ⟨hmain fs hdir htype hload, ?_, ?_, ?_, ?_⟩
          · rw [← hR]
          · intro fs2 w hw
            have hpath : a.common_attribute.path = path := by rw [← hR]
            unfold EnumerationListAttribute.current_value
            rw [hpath, read_attribute_property_of_lookup _ _ _ w hw]
            rfl
          · intro op hop
            injection hop with hop2
            rw [← hop2, ← hR]
          · have hload2 : EnumerationListAttribute.try_from
                (fs.erase_file (path ++ ["elements"])) path = .ok a := by
              unfold EnumerationListAttribute.try_from
              rw [try_read_attribute_property_erase _ _ _ _
                  (append_singleton_ne path PROPERTY_DEFAULT_VALUE "elements"
                    (by decide)),
                h1, except_bind_ok,
                try_read_attribute_property_erase _ _ _ _
                  (append_singleton_ne path PROPERTY_DISPLAY_NAME "elements"
                    (by decide)),
                h2, except_bind_ok,
                try_read_attribute_property_erase _ _ _ _
                  (append_singleton_ne path "display_name_language_code" "elements"
                    (by decide)),
                h3, except_bind_ok,
                try_read_attribute_property_erase _ _ _ _
                  (append_singleton_ne path "possible_values" "elements"
                    (by decide)),
                h4, except_bind_ok, except_pure, hR]
            have hne_root : path ≠ path ++ ["elements"] := by
              intro hcontra
              have hlen := congrArg List.length hcontra
              simp at hlen
            have hdir2 : ((fs.erase_file (path ++ ["elements"])).path_exists path
                && (fs.erase_file (path ++ ["elements"])).is_dir path) = true := by
              rw [path_exists_erase fs _ path hne_root]
              exact hdir
            have htype2 : read_attribute_property (fs.erase_file (path ++ ["elements"]))
                path "type" = .ok "enumeration" := by
              rw [read_attribute_property_erase fs path _ "type"
                (append_singleton_ne path "type" "elements" (by decide))]
              exact htype
            exact hmain (fs.erase_file (path ++ ["elements"])) hdir2 htype2 hload2

/-- C3 witness: the quirk in action on a concrete `BootOrder` directory
whose raw type is `"enumeration"`. -/
theorem C3_witness :
    Attribute.try_from bootOrderFs ["BootOrder"]
      = .ok (.EnumerationList bootOrderAttr) ∧
    (bootOrderAttr.current_value bootOrderFsExt none).1 = .ok ["c", "d"] ∧
    bootOrderAttr.possible_values = ["x", "y"] ∧
    Attribute.try_from (bootOrderFs.erase_file (["BootOrder"] ++ ["elements"]))
      ["BootOrder"] = .ok (.EnumerationList bootOrderAttr) := by
  have h := C3_quirk_reclassification bootOrderFs ["BootOrder"] bootOrderAttr
    (by decide) (by decide) (by decide) (by decide)
  exact ⟨h.1, h.2.2.1 bootOrderFsExt "c:d" (by decide),
    h.2.2.2.1 (some "x;y") (by decide), h.2.2.2.2⟩

/-! ## Claim C8 -/
/-- C8 counterexample: with `is_enabled` present, `role` present but
unparsable, and `mechanism` absent, loading fails with
`VariantNotFount`, not with `MissingFile` naming the absent
`mechanism` — so "any absent required property fails with MissingFile"
does not hold as stated. -/
theorem C8_counterexample :
    Authentication.try_from
      ⟨[], [(["auth", "Admin", "is_enabled"], "1"),
            (["auth", "Admin", "role"], "garbage")]⟩
      ["auth", "Admin"] = .error .VariantNotFount ∧
    AttributeError.VariantNotFount
      ≠ .MissingFile (["auth", "Admin"] ++ ["mechanism"]) := by
  refine ⟨by decide, by decide⟩

/-- C8 (amended): the required properties are checked in the order
`is_enabled`, `role`, `mechanism`; when every earlier one is present
(and parses), an absent one fails the whole construction with
`MissingFile` naming its path, and no `Authentication` is returned;
when all three are present and parse and the password-length bounds
are absent, construction succeeds with defaults (0, 128). -/
theorem C8_authentication_amended (fs : FileSys) (path : FsPath) :
    (fs.path_exists (path ++ ["is_enabled"]) = false →
      Authentication.try_from fs path
        = .error (.MissingFile (path ++ ["is_enabled"]))) ∧
    (∀ e : String,
      read_attribute_property fs path "is_enabled" = .ok e →
      fs.path_exists (path ++ ["role"]) = false →
      Authentication.try_from fs path
        = .error (.MissingFile (path ++ ["role"]))) ∧
    (∀ (e rs : String) (r : Role),
      read_attribute_property fs path "is_enabled" = .ok e →
      read_attribute_property fs path "role" = .ok rs →
      Role.from_str rs = .ok r →
      fs.path_exists (path ++ ["mechanism"]) = false →
      Authentication.try_from fs path
        = .error (.MissingFile (path ++ ["mechanism"]))) ∧
    (∀ (e rs ms : String) (r : Role) (m : Mechanism),
      read_attribute_property fs path "is_enabled" = .ok e →
      read_attribute_property fs path "role" = .ok rs →
      Role.from_str rs = .ok r →
      read_attribute_property fs path "mechanism" = .ok ms →
      Mechanism.from_str ms = .ok m →
      fs.path_exists (path ++ ["min_password_length"]) = false →
      fs.path_exists (path ++ ["max_password_length"]) = false →
      Authentication.try_from fs path
        = .ok { path := path, login := path.getLastD "",
                is_enabled := e == "1", role := r, mechanism := m,
                max_password_length := 128, min_password_length := 0 }) := by
  refine ⟨?_, ?_, ?_, ?_⟩
  · intro h
    unfold Authentication.try_from
    rw [read_attribute_property_missing fs path "is_enabled" h, except_bind_error]
  · intro e he h
    unfold Authentication.try_from
    rw [he, except_bind_ok,
      read_attribute_property_missing fs path "role" h, except_bind_error]
  · intro e rs r he hrs hr h
    unfold Authentication.try_from
    rw [he, except_bind_ok, hrs, except_bind_ok, hr, except_bind_ok,
      read_attribute_property_missing fs path "mechanism" h, except_bind_error]
  · intro e rs ms r m he hrs hr hms hm h6 h7
    unfold Authentication.try_from
    rw [he, except_bind_ok, hrs, except_bind_ok, hr, except_bind_ok,
      hms, except_bind_ok, hm, except_bind_ok,
      try_read_attribute_property_missing fs path "min_password_length" h6,
      except_bind_ok]
    simp only [Option.map_none', option_transpose, except_bind_ok]
    rw [try_read_attribute_property_missing fs path "max_password_length" h7,
      except_bind_ok]
    simp only [Option.map_none', option_transpose, except_bind_ok, except_pure]
    rfl

/-- C8 witness: the three ordered missing-property failures and the
all-present success with defaulted password lengths, at concrete
inputs. -/
theorem C8_witness :
    Authentication.try_from sampleFsEmpty ["auth", "A"]
      = .error (.MissingFile (["auth", "A"] ++ ["is_enabled"])) ∧
    Authentication.try_from authFs1 ["auth", "A"]
      = .error (.MissingFile (["auth", "A"] ++ ["role"])) ∧
    Authentication.try_from authFs2 ["auth", "A"]
      = .error (.MissingFile (["auth", "A"] ++ ["mechanism"])) ∧
    Authentication.try_from authFs3 ["auth", "A"]
      = .ok { path := ["auth", "A"], login := "A", is_enabled := true,
              role := .BiosAdmin, mechanism := .Password,
              max_password_length := 128, min_password_length := 0 } := by
  refine ⟨(C8_authentication_amended sampleFsEmpty ["auth", "A"]).1 (by decide),
    (C8_authentication_amended authFs1 ["auth", "A"]).2.1 "1"
      (by decide) (by decide),
    (C8_authentication_amended authFs2 ["auth", "A"]).2.2.1 "1" "bios-admin"
      .BiosAdmin (by decide) (by decide) (by decide) (by decide),
    ?_⟩
  exact (C8_authentication_amended authFs3 ["auth", "A"]).2.2.2 "1" "bios-admin"
    "password" .BiosAdmin .Password (by decide) (by decide) (by decide)
    (by decide) (by decide) (by decide) (by decide)
